import Mathlib

/-!
# Verification of the contract_playground trading core

Shallow embedding of the decision/strategy/risk pipeline of the
`contract_playground` repository.  Go `float64` values are modelled as
rationals (`ℚ`), Go maps with `nil`-slice defaults as total functions
returning `[]`, and the wall-clock date used by the risk manager as an
explicit `day`/`month`/`year` record passed to each call.  Every
definition mirrors the corresponding Go function; early `return`
statements become nested `if` expressions.
-/

namespace ContractPlayground

/-- A trading signal (`Signal` in `engine.go`).  Fields that a Go struct
literal leaves unset carry the Go zero value, mirrored by the defaults. -/
structure Signal where
  action : String := ""
  quantity : ℚ := 0
  price : ℚ := 0
  stopLoss : ℚ := 0
  takeProfit : ℚ := 0
  confidence : ℚ := 0
  reason : String := ""
  positionSide : String := ""
deriving DecidableEq, Repr

/-- Market information handed to a strategy (`MarketData` in `engine.go`).
The `Timestamp`/`Klines` fields are never read by any strategy and are
omitted. -/
structure MarketData where
  symbol : String := ""
  price : ℚ := 0
  volume : ℚ := 0
  change : ℚ := 0
deriving DecidableEq, Repr

/-- The fields of `models.Position` read by the decision pipeline. -/
structure Position where
  symbol : String := ""
  positionSide : String := ""
  size : ℚ := 0
  entryPrice : ℚ := 0
  status : String := ""
deriving DecidableEq, Repr

/-! ## Simple moving average strategy (`sma_strategy`) -/

/-- State of `SMAStrategy`.  `priceHistory` is a Go map from symbol to a
price slice; a missing key reads as the empty slice. -/
structure SMAStrategy where
  name : String
  shortPeriod : ℕ
  longPeriod : ℕ
  minConfidence : ℚ
  priceHistory : String → List ℚ

/-- `NewSMAStrategy`. -/
def newSMAStrategy : SMAStrategy :=
  { name := "Simple Moving Average"
    shortPeriod := 10
    longPeriod := 20
    minConfidence := 7/10
    priceHistory := fun _ => [] }

/-- `SMAStrategy.updatePriceHistory`: append the price, then keep only the
most recent `longPeriod + 10` entries. -/
def SMAStrategy.updatePriceHistory (s : SMAStrategy) (symbol : String) (price : ℚ) :
    SMAStrategy :=
  let appended := s.priceHistory symbol ++ [price]
  let maxLength := s.longPeriod + 10
  let trimmed :=
    if appended.length > maxLength then appended.drop (appended.length - maxLength)
    else appended
  { s with priceHistory := fun sym => if sym = symbol then trimmed else s.priceHistory sym }

/-- `SMAStrategy.calculateSMA`: arithmetic mean of the last `period` prices,
`0` when there are fewer than `period` samples. -/
def SMAStrategy.calculateSMA (_s : SMAStrategy) (prices : List ℚ) (period : ℕ) : ℚ :=
  if prices.length < period then 0
  else ((prices.drop (prices.length - period)).sum) / (period : ℚ)

/-- `SMAStrategy.calculateQuantity`. -/
def SMAStrategy.calculateQuantity (_s : SMAStrategy) (price positionValue : ℚ) : ℚ :=
  positionValue / price

/-- `SMAStrategy.ShouldBuy`.  Returns the signal together with the updated
strategy state (the Go method mutates the receiver). -/
def SMAStrategy.shouldBuy (s0 : SMAStrategy) (symbol : String) (data : MarketData) :
    Signal × SMAStrategy :=
  let s := s0.updatePriceHistory symbol data.price
  let prices := s.priceHistory symbol
  if prices.length < s.longPeriod then
    ({ action := "HOLD", reason := "Insufficient data" }, s)
  else
    let shortSMA := s.calculateSMA prices s.shortPeriod
    let longSMA := s.calculateSMA prices s.longPeriod
    if shortSMA > longSMA ∧ min ((shortSMA - longSMA) / longSMA * 10) 1 ≥ s.minConfidence then
      ({ action := "BUY"
         quantity := s.calculateQuantity data.price 1000
         price := data.price
         confidence := min ((shortSMA - longSMA) / longSMA * 10) 1
         reason := "SMA crossover"
         positionSide := "LONG" }, s)
    else
      ({ action := "HOLD", reason := "No buy signal" }, s)

/-- `SMAStrategy.ShouldSell`.  The crossover branch emits only above
`minConfidence`; otherwise control falls through to the fixed −2 % stop-loss
and +5 % take-profit checks. -/
def SMAStrategy.shouldSell (s0 : SMAStrategy) (symbol : String) (data : MarketData)
    (position : Position) : Signal × SMAStrategy :=
  let s := s0.updatePriceHistory symbol data.price
  let prices := s.priceHistory symbol
  if prices.length < s.longPeriod then
    ({ action := "HOLD", reason := "Insufficient data" }, s)
  else
    let shortSMA := s.calculateSMA prices s.shortPeriod
    let longSMA := s.calculateSMA prices s.longPeriod
    let pnlPercent := (data.price - position.entryPrice) / position.entryPrice * 100
    if shortSMA < longSMA ∧ min ((longSMA - shortSMA) / longSMA * 10) 1 ≥ s.minConfidence then
      ({ action := "SELL"
         quantity := position.size
         price := data.price
         confidence := min ((longSMA - shortSMA) / longSMA * 10) 1
         reason := "SMA crossover" }, s)
    else if pnlPercent ≤ -2 then
      ({ action := "SELL", quantity := position.size, price := data.price
         confidence := 1, reason := "Stop loss triggered" }, s)
    else if pnlPercent ≥ 5 then
      ({ action := "SELL", quantity := position.size, price := data.price
         confidence := 1, reason := "Take profit triggered" }, s)
    else
      ({ action := "HOLD", reason := "No sell signal" }, s)

/-! ## RSI strategy (`rsi_strategy`) -/

/-- State of `RSIStrategy`. -/
structure RSIStrategy where
  name : String
  period : ℕ
  oversold : ℚ
  overbought : ℚ
  minConfidence : ℚ
  priceHistory : String → List ℚ

/-- `NewRSIStrategy`. -/
def newRSIStrategy : RSIStrategy :=
  { name := "RSI Strategy"
    period := 14
    oversold := 30
    overbought := 70
    minConfidence := 6/10
    priceHistory := fun _ => [] }

/-- `RSIStrategy.updatePriceHistory`: append, then keep the most recent
`period + 20` entries. -/
def RSIStrategy.updatePriceHistory (r : RSIStrategy) (symbol : String) (price : ℚ) :
    RSIStrategy :=
  let appended := r.priceHistory symbol ++ [price]
  let maxLength := r.period + 20
  let trimmed :=
    if appended.length > maxLength then appended.drop (appended.length - maxLength)
    else appended
  { r with priceHistory := fun sym => if sym = symbol then trimmed else r.priceHistory sym }

/-- Consecutive price changes `prices[i] - prices[i-1]` (the loop at the top
of `calculateRSI`). -/
def priceChanges (prices : List ℚ) : List ℚ :=
  List.zipWith (fun prev next => next - prev) prices (prices.drop 1)

/-- The gains list built by `calculateRSI` (`change` when positive, else `0`). -/
def gainsOf (prices : List ℚ) : List ℚ :=
  (priceChanges prices).map fun c => if 0 < c then c else 0

/-- The losses list built by `calculateRSI` (`-change` when the change is not
positive, else `0`). -/
def lossesOf (prices : List ℚ) : List ℚ :=
  (priceChanges prices).map fun c => if 0 < c then 0 else -c

/-- `RSIStrategy.calculateRSI`: neutral `50` without `period + 1` samples,
`100` when the average loss over the last `period` changes is zero, and
`100 − 100/(1 + avgGain/avgLoss)` otherwise. -/
def RSIStrategy.calculateRSI (r : RSIStrategy) (prices : List ℚ) : ℚ :=
  if prices.length < r.period + 1 then 50
  else
    let gains := gainsOf prices
    let losses := lossesOf prices
    if gains.length < r.period then 50
    else
      let avgGain := ((gains.drop (gains.length - r.period)).sum) / (r.period : ℚ)
      let avgLoss := ((losses.drop (losses.length - r.period)).sum) / (r.period : ℚ)
      if avgLoss = 0 then 100
      else
        let rs := avgGain / avgLoss
        100 - (100 / (1 + rs))

/-- `RSIStrategy.calculateQuantity`. -/
def RSIStrategy.calculateQuantity (_r : RSIStrategy) (price positionValue : ℚ) : ℚ :=
  positionValue / price

/-- `RSIStrategy.ShouldBuy`. -/
def RSIStrategy.shouldBuy (r0 : RSIStrategy) (symbol : String) (data : MarketData) :
    Signal × RSIStrategy :=
  let r := r0.updatePriceHistory symbol data.price
  let prices := r.priceHistory symbol
  if prices.length < r.period + 1 then
    ({ action := "HOLD", reason := "Insufficient data for RSI" }, r)
  else
    let rsi := r.calculateRSI prices
    if rsi < r.oversold ∧ (r.oversold - rsi) / r.oversold ≥ r.minConfidence then
      ({ action := "BUY"
         quantity := r.calculateQuantity data.price 1000
         price := data.price
         confidence := (r.oversold - rsi) / r.oversold
         reason := "RSI oversold"
         positionSide := "LONG" }, r)
    else
      ({ action := "HOLD", reason := "RSI" }, r)

/-- `RSIStrategy.ShouldSell`: overbought crossover gated by `minConfidence`,
falling through to the fixed stop-loss / take-profit checks. -/
def RSIStrategy.shouldSell (r0 : RSIStrategy) (symbol : String) (data : MarketData)
    (position : Position) : Signal × RSIStrategy :=
  let r := r0.updatePriceHistory symbol data.price
  let prices := r.priceHistory symbol
  if prices.length < r.period + 1 then
    ({ action := "HOLD", reason := "Insufficient data for RSI" }, r)
  else
    let rsi := r.calculateRSI prices
    let pnlPercent := (data.price - position.entryPrice) / position.entryPrice * 100
    if rsi > r.overbought ∧ (rsi - r.overbought) / (100 - r.overbought) ≥ r.minConfidence then
      ({ action := "SELL"
         quantity := position.size
         price := data.price
         confidence := (rsi - r.overbought) / (100 - r.overbought)
         reason := "RSI overbought" }, r)
    else if pnlPercent ≤ -2 then
      ({ action := "SELL", quantity := position.size, price := data.price
         confidence := 1, reason := "Stop loss" }, r)
    else if pnlPercent ≥ 5 then
      ({ action := "SELL", quantity := position.size, price := data.price
         confidence := 1, reason := "Take profit" }, r)
    else
      ({ action := "HOLD", reason := "RSI" }, r)

/-! ## Grid strategy (`grid_strategy`) -/

/-- One level of the grid (`GridPosition`). -/
structure GridPosition where
  price : ℚ
  quantity : ℚ
  active : Bool
deriving DecidableEq, Repr

/-- State of `GridStrategy`.  Note that `basePrice` is a single scalar shared
by all symbols while `positions` is keyed per symbol. -/
structure GridStrategy where
  name : String
  gridSize : ℚ
  numGrids : ℕ
  basePrice : ℚ
  positions : String → List GridPosition
  minConfidence : ℚ

/-- `NewGridStrategy`. -/
def newGridStrategy : GridStrategy :=
  { name := "Grid Strategy"
    gridSize := 1/100
    numGrids := 10
    basePrice := 0
    positions := fun _ => []
    minConfidence := 8/10 }

/-- `GridStrategy.initializeGrid`: `numGrids` levels spaced by `gridSize`
around the base price, offset by `i - numGrids/2` (Go integer division). -/
def GridStrategy.initializeGrid (g : GridStrategy) (symbol : String) (basePrice : ℚ) :
    GridStrategy :=
  let levels := (List.range g.numGrids).map fun (i : ℕ) =>
    let offset : ℚ := ((((i : ℤ) - ((g.numGrids / 2 : ℕ) : ℤ)) : ℤ) : ℚ) * g.gridSize
    { price := basePrice * (1 + offset), quantity := 0, active := false : GridPosition }
  { g with positions := fun sym => if sym = symbol then levels else g.positions sym }

/-- Go's `int(x)` conversion for `float64`: truncation toward zero. -/
def ratTrunc (q : ℚ) : ℤ :=
  if 0 ≤ q then ⌊q⌋ else ⌈q⌉

/-- `GridStrategy.findGridLevel`. -/
def GridStrategy.findGridLevel (g : GridStrategy) (price : ℚ) : ℤ :=
  if g.basePrice = 0 then -1
  else
    let offset := (price - g.basePrice) / g.basePrice / g.gridSize
    ratTrunc offset + (g.numGrids / 2 : ℕ)

/-- `GridStrategy.calculateGridQuantity`: a fixed 100 quote units per level. -/
def GridStrategy.calculateGridQuantity (_g : GridStrategy) (price : ℚ) : ℚ :=
  100 / price

/-- `GridStrategy.ShouldBuy`: lays the grid out on the first observed price
(for that symbol only), then buys at an inactive level at or above the
current price. -/
def GridStrategy.shouldBuy (g0 : GridStrategy) (symbol : String) (data : MarketData) :
    Signal × GridStrategy :=
  let g :=
    if g0.basePrice = 0 then
      { g0.initializeGrid symbol data.price with basePrice := data.price }
    else g0
  let gridLevel := g.findGridLevel data.price
  let levels := g.positions symbol
  if gridLevel < 0 ∨ gridLevel ≥ (levels.length : ℤ) then
    ({ action := "HOLD", reason := "Price outside grid range" }, g)
  else
    let lv := levels.getD gridLevel.toNat { price := 0, quantity := 0, active := false }
    if data.price ≤ lv.price ∧ lv.active = false then
      ({ action := "BUY"
         quantity := g.calculateGridQuantity data.price
         price := data.price
         confidence := g.minConfidence
         reason := "Grid buy"
         positionSide := "LONG" }, g)
    else
      ({ action := "HOLD", reason := "No grid buy signal" }, g)

/-- `GridStrategy.ShouldSell`: fixed profit target `entry × (1 + gridSize)`
and fixed stop `entry × (1 − 2·gridSize)`. -/
def GridStrategy.shouldSell (g : GridStrategy) (_symbol : String) (data : MarketData)
    (position : Position) : Signal × GridStrategy :=
  if g.basePrice = 0 then
    ({ action := "HOLD", reason := "Grid not initialized" }, g)
  else
    let profitTarget := position.entryPrice * (1 + g.gridSize)
    if data.price ≥ profitTarget then
      ({ action := "SELL", quantity := position.size, price := data.price
         confidence := g.minConfidence, reason := "Grid sell target reached" }, g)
    else
      let stopLoss := position.entryPrice * (1 - g.gridSize * 2)
      if data.price ≤ stopLoss then
        ({ action := "SELL", quantity := position.size, price := data.price
           confidence := 1, reason := "Grid stop loss" }, g)
      else
        ({ action := "HOLD", reason := "No grid sell signal" }, g)

/-! ## AI strategy stub (`ai_strategy`) -/

/-- State of `AIStrategy` (a stub carrying only a name and no configured
minimum confidence). -/
structure AIStrategy where
  name : String
deriving DecidableEq, Repr

/-- `NewAIStrategy`. -/
def newAIStrategy : AIStrategy := { name := "AIStrategy" }

/-- `AIStrategy.ShouldBuy`: always `BUY`, all other signal fields at their
zero values (confidence `0`). -/
def AIStrategy.shouldBuy (_a : AIStrategy) (_symbol : String) (_data : MarketData) : Signal :=
  { action := "BUY" }

/-- `AIStrategy.ShouldSell`: always `SELL`, confidence `0`. -/
def AIStrategy.shouldSell (_a : AIStrategy) (_symbol : String) (_data : MarketData)
    (_position : Position) : Signal :=
  { action := "SELL" }

/-! ## Strategy selection (`NewEngine`) and a uniform evaluation interface -/

/-- The closed family of strategy variants behind the `Strategy` interface. -/
inductive StrategyState where
  | sma (s : SMAStrategy)
  | rsi (r : RSIStrategy)
  | grid (g : GridStrategy)
  | ai (a : AIStrategy)

/-- `true` exactly on the grid variant. -/
def StrategyState.isGridVariant : StrategyState → Bool
  | .grid _ => true
  | _ => false

/-- The strategy-construction `switch` in `NewEngine`: `simple_moving_average`,
`rsi` and `ai` have cases; everything else takes the `default` branch, which
builds the SMA strategy. -/
def strategyForType (t : String) : StrategyState :=
  if t = "simple_moving_average" then .sma newSMAStrategy
  else if t = "rsi" then .rsi newRSIStrategy
  else if t = "ai" then .ai newAIStrategy
  else .sma newSMAStrategy

/-- One call to `ShouldBuy` or `ShouldSell`. -/
inductive StrategyEval where
  | buyEval (symbol : String) (data : MarketData)
  | sellEval (symbol : String) (data : MarketData) (position : Position)

/-- The market price carried by an evaluation. -/
def StrategyEval.price : StrategyEval → ℚ
  | .buyEval _ d => d.price
  | .sellEval _ d _ => d.price

/-- Dispatch an evaluation to the variant's method. -/
def StrategyState.evaluate : StrategyState → StrategyEval → Signal × StrategyState
  | .sma s, .buyEval sym d => ((s.shouldBuy sym d).1, .sma (s.shouldBuy sym d).2)
  | .sma s, .sellEval sym d p => ((s.shouldSell sym d p).1, .sma (s.shouldSell sym d p).2)
  | .rsi r, .buyEval sym d => ((r.shouldBuy sym d).1, .rsi (r.shouldBuy sym d).2)
  | .rsi r, .sellEval sym d p => ((r.shouldSell sym d p).1, .rsi (r.shouldSell sym d p).2)
  | .grid g, .buyEval sym d => ((g.shouldBuy sym d).1, .grid (g.shouldBuy sym d).2)
  | .grid g, .sellEval sym d p => ((g.shouldSell sym d p).1, .grid (g.shouldSell sym d p).2)
  | .ai a, .buyEval sym d => (a.shouldBuy sym d, .ai a)
  | .ai a, .sellEval sym d p => (a.shouldSell sym d p, .ai a)

/-- The variant's configured minimum confidence; the AI stub has none, which
reads as the Go zero value `0`. -/
def StrategyState.minConfOf : StrategyState → ℚ
  | .sma s => s.minConfidence
  | .rsi r => r.minConfidence
  | .grid g => g.minConfidence
  | .ai _ => 0

/-! ## Risk manager (`risk_manager`) -/

/-- A calendar date as compared by `resetDailyCountersIfNeeded` — the Go code
compares exactly `Day()`, `Month()` and `Year()` of two `time.Time` values,
so a date record is the faithful abstraction of the clock used there. -/
structure SimpleDate where
  day : ℕ
  month : ℕ
  year : ℕ
deriving DecidableEq, Repr

/-- The two dates agree on all three calendar components. -/
def sameCalendarDate (a b : SimpleDate) : Prop :=
  a.day = b.day ∧ a.month = b.month ∧ a.year = b.year

instance (a b : SimpleDate) : Decidable (sameCalendarDate a b) := by
  unfold sameCalendarDate; infer_instance

/-- `RiskConfig`; unset fields carry the Go zero value. -/
structure RiskConfig where
  maxPositionSize : ℚ := 0
  stopLossPercent : ℚ := 0
  takeProfitPercent : ℚ := 0
  maxDailyLoss : ℚ := 0
  maxLeverage : ℤ := 0
  riskPerTrade : ℚ := 0
  maxDrawdown : ℚ := 0
  maxOpenPositions : ℤ := 0
  minOrderValue : ℚ := 0
  maxOrderValue : ℚ := 0
  varLimit : ℚ := 0
  correlationLimit : ℚ := 0
deriving DecidableEq, Repr

/-- Mutable state of `RiskManager` (logger omitted). -/
structure RiskManager where
  config : RiskConfig
  dailyLoss : ℚ
  dailyTrades : ℤ
  lastResetDate : SimpleDate
  totalExposure : ℚ
  maxExposure : ℚ
deriving DecidableEq, Repr

/-- `NewRiskManager`: zero counters, `lastResetDate = time.Now()`, and a
default max exposure of ten times the position-size cap. -/
def newRiskManager (config : RiskConfig) (now : SimpleDate) : RiskManager :=
  { config := config
    dailyLoss := 0
    dailyTrades := 0
    lastResetDate := now
    totalExposure := 0
    maxExposure := config.maxPositionSize * 10 }

/-- `OrderInfo` as handed to `ValidateOrder`. -/
structure OrderInfo where
  symbol : String
  side : String
  quantity : ℚ
  price : ℚ
deriving DecidableEq, Repr

/-- `RiskManager.resetDailyCountersIfNeeded`: zero the daily counters when
the current date differs from the last reset date in day, month or year. -/
def RiskManager.resetDailyCountersIfNeeded (rm : RiskManager) (now : SimpleDate) :
    RiskManager :=
  if now.day ≠ rm.lastResetDate.day ∨ now.month ≠ rm.lastResetDate.month ∨
      now.year ≠ rm.lastResetDate.year then
    { rm with dailyLoss := 0, dailyTrades := 0, lastResetDate := now }
  else rm

/-- `RiskManager.isTradingAllowed`. -/
def RiskManager.isTradingAllowed (rm : RiskManager) : Bool :=
  if rm.config.maxOpenPositions > 0 ∧ rm.dailyTrades ≥ rm.config.maxOpenPositions then false
  else if rm.dailyLoss ≥ rm.config.maxDailyLoss then false
  else true

/-- `RiskManager.validateOrderSize`: minimum always enforced, maximum only
when `maxOrderValue` is set (> 0). -/
def RiskManager.validateOrderSize (rm : RiskManager) (order : OrderInfo) : Bool :=
  let orderValue := order.quantity * order.price
  if orderValue < rm.config.minOrderValue then false
  else if rm.config.maxOrderValue > 0 ∧ orderValue > rm.config.maxOrderValue then false
  else true

/-- `RiskManager.validatePositionSize`. -/
def RiskManager.validatePositionSize (rm : RiskManager) (order : OrderInfo) : Bool :=
  let orderValue := order.quantity * order.price
  if orderValue > rm.config.maxPositionSize then false else true

/-- `RiskManager.validateDailyLossLimit` (the order itself is not used). -/
def RiskManager.validateDailyLossLimit (rm : RiskManager) (_order : OrderInfo) : Bool :=
  if rm.dailyLoss ≥ rm.config.maxDailyLoss then false else true

/-- `RiskManager.validateExposureLimit`: projected exposure must stay within
`maxExposure`. -/
def RiskManager.validateExposureLimit (rm : RiskManager) (order : OrderInfo) : Bool :=
  let orderValue := order.quantity * order.price
  if rm.totalExposure + orderValue > rm.maxExposure then false else true

/-- `RiskManager.validateRiskPerTrade`: bounds `notional × riskPerTrade%`
against `maxPositionSize × riskPerTrade%`. -/
def RiskManager.validateRiskPerTrade (rm : RiskManager) (order : OrderInfo) : Bool :=
  let orderValue := order.quantity * order.price
  let riskAmount := orderValue * (rm.config.riskPerTrade / 100)
  let maxRiskPerTrade := rm.config.maxPositionSize * (rm.config.riskPerTrade / 100)
  if riskAmount > maxRiskPerTrade then false else true

/-- `RiskManager.ValidateOrder`: daily reset, then the six checks in source
order, each short-circuiting to rejection.  Returns the verdict together
with the (possibly reset) state. -/
def RiskManager.validateOrder (rm0 : RiskManager) (now : SimpleDate) (order : OrderInfo) :
    Bool × RiskManager :=
  let rm := rm0.resetDailyCountersIfNeeded now
  if rm.isTradingAllowed = false then (false, rm)
  else if rm.validateOrderSize order = false then (false, rm)
  else if rm.validatePositionSize order = false then (false, rm)
  else if rm.validateDailyLossLimit order = false then (false, rm)
  else if rm.validateExposureLimit order = false then (false, rm)
  else if rm.validateRiskPerTrade order = false then (false, rm)
  else (true, rm)

/-- `RiskManager.UpdateDailyLoss`. -/
def RiskManager.updateDailyLoss (rm0 : RiskManager) (now : SimpleDate) (loss : ℚ) :
    RiskManager :=
  let rm := rm0.resetDailyCountersIfNeeded now
  { rm with dailyLoss := rm.dailyLoss + loss }

/-- `RiskManager.UpdateDailyTrades`. -/
def RiskManager.updateDailyTrades (rm0 : RiskManager) (now : SimpleDate) : RiskManager :=
  let rm := rm0.resetDailyCountersIfNeeded now
  { rm with dailyTrades := rm.dailyTrades + 1 }

/-- `RiskManager.UpdateExposure`. -/
def RiskManager.updateExposure (rm : RiskManager) (exposure : ℚ) : RiskManager :=
  { rm with totalExposure := exposure }

/-- `RiskManager.EmergencyStop`: set the daily loss to the configured
maximum so that the trading-allowed check fails from now on. -/
def RiskManager.emergencyStop (rm : RiskManager) (_reason : String) : RiskManager :=
  { rm with dailyLoss := rm.config.maxDailyLoss }

/-! ## Decision step of the engine (`processSymbolSignals`) -/

/-- The order request sent to the venue client (`exchange.OrderRequest`,
restricted to the fields the decision step fills for market orders). -/
structure OrderRequest where
  symbol : String
  side : String
  type : String
  quantity : ℚ
deriving DecidableEq, Repr

/-- The market sell request built by `executeSellOrder` (quantity is the
position size). -/
def sellOrderRequest (symbol : String) (position : Position) : OrderRequest :=
  { symbol := symbol, side := "SELL", type := "MARKET", quantity := position.size }

/-- The market buy request built by `executeBuyOrder`. -/
def buyOrderRequest (symbol : String) (signal : Signal) : OrderRequest :=
  { symbol := symbol, side := "BUY", type := "MARKET", quantity := signal.quantity }

/-- Observable outcome of one `processSymbolSignals` step for one symbol:
the orders handed to the venue client, the `ValidateOrder` calls made (with
their verdicts), and the resulting risk-manager state. -/
structure DecisionOutcome where
  placedOrders : List OrderRequest
  validations : List (OrderInfo × Bool)
  riskManager : RiskManager
deriving DecidableEq, Repr

/-- The buy half of `processSymbolSignals`: an actionable `BUY` signal is
first validated via `RiskManager.ValidateOrder`; the order is placed only
on approval. -/
def processBuySide (rm : RiskManager) (now : SimpleDate) (symbol : String)
    (buySignal : Signal) : DecisionOutcome :=
  if buySignal.action = "BUY" then
    let oi : OrderInfo :=
      { symbol := symbol, side := "BUY", quantity := buySignal.quantity
        price := buySignal.price }
    let v := rm.validateOrder now oi
    if v.1 then
      { placedOrders := [buyOrderRequest symbol buySignal]
        validations := [(oi, v.1)]
        riskManager := v.2 }
    else
      { placedOrders := [], validations := [(oi, v.1)], riskManager := v.2 }
  else
    { placedOrders := [], validations := [], riskManager := rm }

/-- `Engine.processSymbolSignals`, given the strategy's signals for the
symbol: with an `OPEN` position an actionable `SELL` signal goes straight to
`executeSellOrder` (no risk validation); without an open position an
actionable `BUY` signal is gated by `ValidateOrder`. -/
def processSymbolSignals (rm : RiskManager) (now : SimpleDate) (symbol : String)
    (position : Option Position) (sellSignal buySignal : Signal) : DecisionOutcome :=
  match position with
  | some p =>
    if p.status = "OPEN" then
      if sellSignal.action = "SELL" then
        { placedOrders := [sellOrderRequest symbol p], validations := [], riskManager := rm }
      else
        { placedOrders := [], validations := [], riskManager := rm }
    else
      processBuySide rm now symbol buySignal
  | none => processBuySide rm now symbol buySignal

/-! ## Theorems -/

/-- Trimming `l` to its last `cap` entries keeps at most `cap` entries and
removes only from the front. -/
theorem trim_length_le (l : List ℚ) (cap : ℕ) :
    (if l.length > cap then l.drop (l.length - cap) else l).length ≤ cap ∧
    (if l.length > cap then l.drop (l.length - cap) else l).IsSuffix l := by
  split
  · constructor
    · simp only [List.length_drop]
      omega
    · exact List.drop_suffix _ _
  · exact ⟨by omega, List.suffix_refl l⟩

/-- C7: after every history update, the SMA strategy retains at most
`longPeriod + 10` prices and the RSI strategy at most `period + 20` prices
for the updated symbol, and in both cases the retained window is a suffix
of the old history with the new price appended — only the oldest entries
are evicted. -/
theorem C7_price_history_capped (s : SMAStrategy) (r : RSIStrategy) (symbol : String)
    (price : ℚ) :
    ((s.updatePriceHistory symbol price).priceHistory symbol).length ≤ s.longPeriod + 10 ∧
    ((s.updatePriceHistory symbol price).priceHistory symbol).IsSuffix
      (s.priceHistory symbol ++ [price]) ∧
    ((r.updatePriceHistory symbol price).priceHistory symbol).length ≤ r.period + 20 ∧
    ((r.updatePriceHistory symbol price).priceHistory symbol).IsSuffix
      (r.priceHistory symbol ++ [price]) := by
  have hs := trim_length_le (s.priceHistory symbol ++ [price]) (s.longPeriod + 10)
  have hr := trim_length_le (r.priceHistory symbol ++ [price]) (r.period + 20)
  simp only [SMAStrategy.updatePriceHistory, RSIStrategy.updatePriceHistory, if_pos rfl]
  exact ⟨hs.1, hs.2, hr.1, hr.2⟩

/-- C8: the daily counters reset exactly once per calendar-day transition.
The reset fires precisely when the current date differs from the last reset
date in its day, month or year component (the only clock information the
code inspects — no elapsed-duration or time-of-day comparison exists), it
zeroes both counters and records the new date, and a second check on the
same calendar date is a no-op. -/
theorem C8_daily_reset_once_per_day (rm : RiskManager) (now : SimpleDate) :
    (sameCalendarDate rm.lastResetDate now → rm.resetDailyCountersIfNeeded now = rm) ∧
    (¬ sameCalendarDate rm.lastResetDate now →
      (rm.resetDailyCountersIfNeeded now).dailyLoss = 0 ∧
      (rm.resetDailyCountersIfNeeded now).dailyTrades = 0 ∧
      (rm.resetDailyCountersIfNeeded now).lastResetDate = now) ∧
    (rm.resetDailyCountersIfNeeded now).resetDailyCountersIfNeeded now =
      rm.resetDailyCountersIfNeeded now := by
  unfold RiskManager.resetDailyCountersIfNeeded sameCalendarDate
  refine ⟨fun hsame => ?_, fun hdiff => ?_, ?_⟩
  · rw [if_neg]; push_neg; exact ⟨hsame.1.symm, hsame.2.1.symm, hsame.2.2.symm⟩
  · rw [if_pos]
    · exact ⟨rfl, rfl, rfl⟩
    · by_contra hc
      push_neg at hc
      exact hdiff ⟨hc.1.symm, hc.2.1.symm, hc.2.2.symm⟩
  · split
    · simp
    · rfl

/-- C8 witness: on a concrete state, a transition from 2024-01-01 to
2024-01-02 zeroes the counters and a same-day check changes nothing. -/
theorem C8_witness :
    let rm : RiskManager :=
      { config := { maxDailyLoss := 500 }, dailyLoss := 120, dailyTrades := 3
        lastResetDate := ⟨1, 1, 2024⟩, totalExposure := 0, maxExposure := 1000 }
    ¬ sameCalendarDate rm.lastResetDate ⟨2, 1, 2024⟩ ∧
    (rm.resetDailyCountersIfNeeded ⟨2, 1, 2024⟩).dailyLoss = 0 ∧
    (rm.resetDailyCountersIfNeeded ⟨2, 1, 2024⟩).dailyTrades = 0 ∧
    (rm.resetDailyCountersIfNeeded ⟨2, 1, 2024⟩).lastResetDate = ⟨2, 1, 2024⟩ ∧
    rm.resetDailyCountersIfNeeded ⟨1, 1, 2024⟩ = rm := by
  intro rm
  have hdiff : ¬ sameCalendarDate rm.lastResetDate ⟨2, 1, 2024⟩ := by decide
  have h1 := (C8_daily_reset_once_per_day rm ⟨2, 1, 2024⟩).2.1 hdiff
  have h2 := (C8_daily_reset_once_per_day rm ⟨1, 1, 2024⟩).1 (by decide)
  exact ⟨hdiff, h1.1, h1.2.1, h1.2.2, h2⟩

/-- C3 counterexample: the configured type string `"grid"` does not
construct the grid variant — the `switch` in `NewEngine` has no `"grid"`
case, so it takes the default branch and builds the SMA strategy. -/
theorem C3_counterexample :
    strategyForType "grid" = .sma newSMAStrategy ∧
    (strategyForType "grid").isGridVariant = false := by
  constructor <;> rfl

/-- C3 (amended): the types `simple_moving_average`, `rsi` and `ai`
construct their corresponding variants; every other type string — including
the documented `grid` — falls back to the default SMA variant instead of
failing. -/
theorem C3_strategy_selection (t : String)
    (h1 : t ≠ "simple_moving_average") (h2 : t ≠ "rsi") (h3 : t ≠ "ai") :
    strategyForType "simple_moving_average" = .sma newSMAStrategy ∧
    strategyForType "rsi" = .rsi newRSIStrategy ∧
    strategyForType "ai" = .ai newAIStrategy ∧
    strategyForType t = .sma newSMAStrategy := by
  refine ⟨rfl, rfl, rfl, ?_⟩
  unfold strategyForType
  rw [if_neg h1, if_neg h2, if_neg h3]

/-- C3 witness: instantiated at the type string `"grid"`. -/
theorem C3_witness :
    strategyForType "grid" = .sma newSMAStrategy :=
  (C3_strategy_selection "grid" (by decide) (by decide) (by decide)).2.2.2

/-- An `if a > b then false else true` check passes exactly when `a ≤ b`. -/
theorem gt_check_eq_true_iff (a b : ℚ) : (if a > b then false else true) = true ↔ a ≤ b := by
  split_ifs with h
  · simpa using not_le.mpr h
  · simpa using not_lt.mp h

theorem isTradingAllowed_spec (rm : RiskManager) :
    rm.isTradingAllowed = true ↔
      ¬ (rm.config.maxOpenPositions > 0 ∧ rm.dailyTrades ≥ rm.config.maxOpenPositions) ∧
      rm.dailyLoss < rm.config.maxDailyLoss := by
  unfold RiskManager.isTradingAllowed
  split_ifs with h1 h2
  · simp only [Bool.false_eq_true, false_iff]
    exact fun hc => hc.1 h1
  · simp only [Bool.false_eq_true, false_iff]
    exact fun hc => absurd hc.2 (not_lt.mpr h2)
  · simp only [true_iff]
    exact ⟨h1, not_le.mp h2⟩

theorem validateOrderSize_spec (rm : RiskManager) (order : OrderInfo) :
    rm.validateOrderSize order = true ↔
      rm.config.minOrderValue ≤ order.quantity * order.price ∧
      ¬ (rm.config.maxOrderValue > 0 ∧
         order.quantity * order.price > rm.config.maxOrderValue) := by
  unfold RiskManager.validateOrderSize
  dsimp only
  split_ifs with h1 h2
  · simp only [Bool.false_eq_true, false_iff]
    exact fun hc => absurd hc.1 (not_le.mpr h1)
  · simp only [Bool.false_eq_true, false_iff]
    exact fun hc => hc.2 h2
  · simp only [true_iff]
    exact ⟨not_lt.mp h1, h2⟩

theorem validatePositionSize_spec (rm : RiskManager) (order : OrderInfo) :
    rm.validatePositionSize order = true ↔
      order.quantity * order.price ≤ rm.config.maxPositionSize :=
  gt_check_eq_true_iff _ _

theorem validateDailyLossLimit_spec (rm : RiskManager) (order : OrderInfo) :
    rm.validateDailyLossLimit order = true ↔ rm.dailyLoss < rm.config.maxDailyLoss := by
  unfold RiskManager.validateDailyLossLimit
  split_ifs with h
  · simpa using not_lt.mpr h
  · simpa using not_le.mp h

theorem validateExposureLimit_spec (rm : RiskManager) (order : OrderInfo) :
    rm.validateExposureLimit order = true ↔
      rm.totalExposure + order.quantity * order.price ≤ rm.maxExposure :=
  gt_check_eq_true_iff _ _

theorem validateRiskPerTrade_spec (rm : RiskManager) (order : OrderInfo) :
    rm.validateRiskPerTrade order = true ↔
      order.quantity * order.price * (rm.config.riskPerTrade / 100) ≤
        rm.config.maxPositionSize * (rm.config.riskPerTrade / 100) :=
  gt_check_eq_true_iff _ _

/-- The verdict of `ValidateOrder` is the conjunction of its six checks,
taken on the state after the implicit daily reset. -/
theorem validateOrder_fst_eq (rm0 : RiskManager) (now : SimpleDate) (order : OrderInfo) :
    (rm0.validateOrder now order).1 =
      ((rm0.resetDailyCountersIfNeeded now).isTradingAllowed &&
       (rm0.resetDailyCountersIfNeeded now).validateOrderSize order &&
       (rm0.resetDailyCountersIfNeeded now).validatePositionSize order &&
       (rm0.resetDailyCountersIfNeeded now).validateDailyLossLimit order &&
       (rm0.resetDailyCountersIfNeeded now).validateExposureLimit order &&
       (rm0.resetDailyCountersIfNeeded now).validateRiskPerTrade order) := by
  unfold RiskManager.validateOrder
  dsimp only
  split_ifs with h1 h2 h3 h4 h5 h6 <;> simp_all

/-- C2 (amended): after the implicit daily reset, `ValidateOrder` approves
an order exactly when all six configured checks pass: the daily-trade cap is
not hit, accumulated daily loss is under `maxDailyLoss`, the notional is at
least `minOrderValue` and (when a maximum is set) at most `maxOrderValue`,
the notional is within `maxPositionSize`, the projected exposure stays
within `maxExposure`, and the risk-per-trade amount is within the budget
derived from `maxPositionSize`.  Rejection happens exactly when one of
these fails — not only for the three conditions the claim lists. -/
theorem C2_validateOrder_approval_iff (rm0 : RiskManager) (now : SimpleDate)
    (order : OrderInfo) :
    (rm0.validateOrder now order).1 = true ↔
      (¬ ((rm0.resetDailyCountersIfNeeded now).config.maxOpenPositions > 0 ∧
          (rm0.resetDailyCountersIfNeeded now).dailyTrades ≥
            (rm0.resetDailyCountersIfNeeded now).config.maxOpenPositions) ∧
       (rm0.resetDailyCountersIfNeeded now).dailyLoss <
         (rm0.resetDailyCountersIfNeeded now).config.maxDailyLoss) ∧
      (rm0.resetDailyCountersIfNeeded now).config.minOrderValue ≤
        order.quantity * order.price ∧
      ¬ ((rm0.resetDailyCountersIfNeeded now).config.maxOrderValue > 0 ∧
         order.quantity * order.price >
           (rm0.resetDailyCountersIfNeeded now).config.maxOrderValue) ∧
      order.quantity * order.price ≤
        (rm0.resetDailyCountersIfNeeded now).config.maxPositionSize ∧
      (rm0.resetDailyCountersIfNeeded now).totalExposure + order.quantity * order.price ≤
        (rm0.resetDailyCountersIfNeeded now).maxExposure ∧
      order.quantity * order.price *
          ((rm0.resetDailyCountersIfNeeded now).config.riskPerTrade / 100) ≤
        (rm0.resetDailyCountersIfNeeded now).config.maxPositionSize *
          ((rm0.resetDailyCountersIfNeeded now).config.riskPerTrade / 100) := by
  rw [validateOrder_fst_eq]
  simp only [Bool.and_eq_true]
  rw [isTradingAllowed_spec, validateOrderSize_spec, validatePositionSize_spec,
    validateDailyLossLimit_spec, validateExposureLimit_spec, validateRiskPerTrade_spec]
  tauto

/-- C2 counterexample: an order whose notional (200) is at least
`minOrderValue` (10), whose projected exposure (200) is within
`maxExposure` (1000), and whose daily loss (0) is under `maxDailyLoss`
(500) — so none of the claim's three rejection conditions holds — is
nevertheless rejected, because the notional exceeds `maxPositionSize`
(100). -/
theorem C2_counterexample :
    let cfg : RiskConfig :=
      { maxPositionSize := 100, maxDailyLoss := 500, minOrderValue := 10, riskPerTrade := 1 }
    let d : SimpleDate := ⟨1, 1, 2024⟩
    let rm : RiskManager :=
      { config := cfg, dailyLoss := 0, dailyTrades := 0, lastResetDate := d
        totalExposure := 0, maxExposure := 1000 }
    let order : OrderInfo := { symbol := "BTCUSDT", side := "BUY", quantity := 2, price := 100 }
    ¬ (order.quantity * order.price < rm.config.minOrderValue) ∧
    ¬ (rm.totalExposure + order.quantity * order.price > rm.maxExposure) ∧
    ¬ (rm.dailyLoss ≥ rm.config.maxDailyLoss) ∧
    (rm.validateOrder d order).1 = false := by
  refine ⟨by norm_num, by norm_num, by norm_num, ?_⟩
  have hreset : (RiskManager.resetDailyCountersIfNeeded
      { config := { maxPositionSize := 100, maxDailyLoss := 500, minOrderValue := 10
                    riskPerTrade := 1 }
        dailyLoss := 0, dailyTrades := 0, lastResetDate := ⟨1, 1, 2024⟩
        totalExposure := 0, maxExposure := 1000 } ⟨1, 1, 2024⟩) =
      { config := { maxPositionSize := 100, maxDailyLoss := 500, minOrderValue := 10
                    riskPerTrade := 1 }
        dailyLoss := 0, dailyTrades := 0, lastResetDate := ⟨1, 1, 2024⟩
        totalExposure := 0, maxExposure := 1000 } := by
    simp [RiskManager.resetDailyCountersIfNeeded]
  rw [validateOrder_fst_eq, hreset]
  have hpos : RiskManager.validatePositionSize
      { config := { maxPositionSize := 100, maxDailyLoss := 500, minOrderValue := 10
                    riskPerTrade := 1 }
        dailyLoss := 0, dailyTrades := 0, lastResetDate := ⟨1, 1, 2024⟩
        totalExposure := 0, maxExposure := 1000 }
      { symbol := "BTCUSDT", side := "BUY", quantity := 2, price := 100 } = false := by
    rw [← Bool.not_eq_true, validatePositionSize_spec]
    norm_num
  simp [hpos]

/-- Every order the buy half of the decision step places was approved by
`ValidateOrder` on the buy signal's data. -/
theorem processBuySide_placed_approved (rm : RiskManager) (now : SimpleDate)
    (symbol : String) (buySignal : Signal) :
    ∀ o ∈ (processBuySide rm now symbol buySignal).placedOrders,
      (rm.validateOrder now
        { symbol := symbol, side := "BUY", quantity := buySignal.quantity
          price := buySignal.price }).1 = true := by
  intro o ho
  unfold processBuySide at ho
  dsimp only at ho
  split_ifs at ho with h1 h2
  · exact h2
  · simp at ho
  · simp at ho

/-- C1 (amended): in the decision step only buy orders are gated by
`RiskGate.ValidateOrder` — every placed order with side `BUY` was approved —
while an actionable `SELL` signal on an `OPEN` position is executed
directly: the sell order is placed and no `ValidateOrder` call is made at
all. -/
theorem C1_buy_gated_sell_ungated (rm : RiskManager) (now : SimpleDate) (symbol : String)
    (position : Option Position) (sellSignal buySignal : Signal) :
    (∀ o ∈ (processSymbolSignals rm now symbol position sellSignal buySignal).placedOrders,
       o.side = "BUY" →
       (rm.validateOrder now
         { symbol := symbol, side := "BUY", quantity := buySignal.quantity
           price := buySignal.price }).1 = true) ∧
    (∀ p : Position, position = some p → p.status = "OPEN" → sellSignal.action = "SELL" →
       (processSymbolSignals rm now symbol position sellSignal buySignal).placedOrders =
         [sellOrderRequest symbol p] ∧
       (processSymbolSignals rm now symbol position sellSignal buySignal).validations = []) := by
  constructor
  · intro o ho _hside
    cases position with
    | none =>
      simp only [processSymbolSignals] at ho
      exact processBuySide_placed_approved rm now symbol buySignal o ho
    | some p =>
      simp only [processSymbolSignals] at ho
      by_cases hopen : p.status = "OPEN"
      · rw [if_pos hopen] at ho
        by_cases hsell : sellSignal.action = "SELL"
        · rw [if_pos hsell] at ho
          simp only [List.mem_singleton] at ho
          subst ho
          simp [sellOrderRequest] at _hside
        · rw [if_neg hsell] at ho
          simp at ho
      · rw [if_neg hopen] at ho
        exact processBuySide_placed_approved rm now symbol buySignal o ho
  · intro p hp hopen hsell
    subst hp
    simp only [processSymbolSignals]
    rw [if_pos hopen, if_pos hsell]
    exact ⟨rfl, rfl⟩

/-- C1 witness: with an open position and an actionable sell signal the
decision step places exactly the sell order and performs no validation; the
buy half of the instantiation is vacuous (nothing with side `BUY` is
placed). -/
theorem C1_witness :
    let d : SimpleDate := ⟨1, 1, 2024⟩
    let rm : RiskManager :=
      { config := { maxPositionSize := 100, maxDailyLoss := 500, minOrderValue := 10
                    riskPerTrade := 1 }
        dailyLoss := 0, dailyTrades := 0, lastResetDate := d
        totalExposure := 0, maxExposure := 1000 }
    let pos : Position :=
      { symbol := "BTCUSDT", positionSide := "LONG", size := 1, entryPrice := 100
        status := "OPEN" }
    let sell : Signal := { action := "SELL", quantity := 1, price := 90, confidence := 1 }
    let hold : Signal := { action := "HOLD" }
    (processSymbolSignals rm d "BTCUSDT" (some pos) sell hold).placedOrders =
      [sellOrderRequest "BTCUSDT" pos] ∧
    (processSymbolSignals rm d "BTCUSDT" (some pos) sell hold).validations = [] := by
  intro d rm pos sell hold
  exact (C1_buy_gated_sell_ungated rm d "BTCUSDT" (some pos) sell hold).2 pos rfl rfl rfl

/-- C1 counterexample: with `dailyLoss` already at `maxDailyLoss`,
`ValidateOrder` rejects every order — yet the decision step still places the
sell order for an actionable `SELL` signal on an open position, making no
validation call.  An order is executed that `ValidateOrder` did not (and
would not) approve. -/
theorem C1_counterexample :
    let d : SimpleDate := ⟨1, 1, 2024⟩
    let rm : RiskManager :=
      { config := { maxPositionSize := 100, maxDailyLoss := 500, minOrderValue := 10
                    riskPerTrade := 1 }
        dailyLoss := 500, dailyTrades := 0, lastResetDate := d
        totalExposure := 0, maxExposure := 1000 }
    let pos : Position :=
      { symbol := "BTCUSDT", positionSide := "LONG", size := 1, entryPrice := 100
        status := "OPEN" }
    let sell : Signal := { action := "SELL", quantity := 1, price := 90, confidence := 1 }
    let hold : Signal := { action := "HOLD" }
    (processSymbolSignals rm d "BTCUSDT" (some pos) sell hold).placedOrders =
      [{ symbol := "BTCUSDT", side := "SELL", type := "MARKET", quantity := 1 }] ∧
    (processSymbolSignals rm d "BTCUSDT" (some pos) sell hold).validations = [] ∧
    (rm.validateOrder d
      { symbol := "BTCUSDT", side := "SELL", quantity := 1, price := 90 }).1 = false := by
  refine ⟨rfl, rfl, ?_⟩
  have hreset : (RiskManager.resetDailyCountersIfNeeded
      { config := { maxPositionSize := 100, maxDailyLoss := 500, minOrderValue := 10
                    riskPerTrade := 1 }
        dailyLoss := 500, dailyTrades := 0, lastResetDate := ⟨1, 1, 2024⟩
        totalExposure := 0, maxExposure := 1000 } ⟨1, 1, 2024⟩) =
      { config := { maxPositionSize := 100, maxDailyLoss := 500, minOrderValue := 10
                    riskPerTrade := 1 }
        dailyLoss := 500, dailyTrades := 0, lastResetDate := ⟨1, 1, 2024⟩
        totalExposure := 0, maxExposure := 1000 } := by
    simp [RiskManager.resetDailyCountersIfNeeded]
  have hallow : RiskManager.isTradingAllowed
      { config := { maxPositionSize := 100, maxDailyLoss := 500, minOrderValue := 10
                    riskPerTrade := 1 }
        dailyLoss := 500, dailyTrades := 0, lastResetDate := ⟨1, 1, 2024⟩
        totalExposure := 0, maxExposure := 1000 } = false := by
    rw [← Bool.not_eq_true, isTradingAllowed_spec]
    norm_num
  rw [validateOrder_fst_eq, hreset]
  simp [hallow]

/-- On the same calendar date the implicit daily reset is a no-op. -/
theorem reset_same_date (rm : RiskManager) (now : SimpleDate)
    (h : sameCalendarDate rm.lastResetDate now) :
    rm.resetDailyCountersIfNeeded now = rm := by
  unfold RiskManager.resetDailyCountersIfNeeded
  rw [if_neg]
  push_neg
  exact ⟨h.1.symm, h.2.1.symm, h.2.2.symm⟩

/-- Trading is blocked whenever the accumulated daily loss has reached the
configured maximum. -/
theorem isTradingAllowed_false_of_loss_ge (rm : RiskManager)
    (h : rm.config.maxDailyLoss ≤ rm.dailyLoss) : rm.isTradingAllowed = false := by
  rw [← Bool.not_eq_true, isTradingAllowed_spec]
  intro hc
  exact absurd hc.2 (not_lt.mpr h)

/-- With the daily loss at (or beyond) the maximum and no calendar-day
transition, every `ValidateOrder` call is rejected. -/
theorem validateOrder_false_of_loss_ge (rm : RiskManager) (now : SimpleDate)
    (order : OrderInfo) (hsame : sameCalendarDate rm.lastResetDate now)
    (h : rm.config.maxDailyLoss ≤ rm.dailyLoss) :
    (rm.validateOrder now order).1 = false := by
  rw [validateOrder_fst_eq, reset_same_date rm now hsame]
  simp [isTradingAllowed_false_of_loss_ge rm h]

/-- The counter-mutating operations the risk manager exposes
(`UpdateDailyLoss`, `UpdateDailyTrades`, `UpdateExposure`,
`EmergencyStop`). -/
inductive RiskOp where
  | updLoss (loss : ℚ)
  | updTrades
  | updExposure (exposure : ℚ)
  | emergency (reason : String)

/-- The operation records a nonnegative loss amount (trivially true for the
operations that carry no loss). -/
def RiskOp.NonnegLoss : RiskOp → Prop
  | .updLoss l => 0 ≤ l
  | _ => True

/-- Dispatch one risk-manager operation at the given wall-clock date. -/
def applyRiskOp (now : SimpleDate) (rm : RiskManager) : RiskOp → RiskManager
  | .updLoss l => rm.updateDailyLoss now l
  | .updTrades => rm.updateDailyTrades now
  | .updExposure e => rm.updateExposure e
  | .emergency r => rm.emergencyStop r

/-- Any sequence of same-day operations with nonnegative loss amounts keeps
the configuration, the reset date and a saturated daily loss. -/
theorem riskOps_keep_saturated (now : SimpleDate) (ops : List RiskOp) :
    ∀ rm : RiskManager, sameCalendarDate rm.lastResetDate now →
      rm.config.maxDailyLoss ≤ rm.dailyLoss →
      (∀ op ∈ ops, op.NonnegLoss) →
      (ops.foldl (applyRiskOp now) rm).config = rm.config ∧
      (ops.foldl (applyRiskOp now) rm).lastResetDate = rm.lastResetDate ∧
      rm.config.maxDailyLoss ≤ (ops.foldl (applyRiskOp now) rm).dailyLoss := by
  induction ops with
  | nil => intro rm _ hloss _; exact ⟨rfl, rfl, hloss⟩
  | cons op rest ih =>
    intro rm hsame hloss hops
    have hstep : (applyRiskOp now rm op).config = rm.config ∧
        (applyRiskOp now rm op).lastResetDate = rm.lastResetDate ∧
        rm.config.maxDailyLoss ≤ (applyRiskOp now rm op).dailyLoss := by
      cases op with
      | updLoss l =>
        have hnn : (0 : ℚ) ≤ l := hops (.updLoss l) (List.mem_cons_self _ _)
        have heq : applyRiskOp now rm (.updLoss l) =
            { rm with dailyLoss := rm.dailyLoss + l } := by
          simp only [applyRiskOp, RiskManager.updateDailyLoss, reset_same_date rm now hsame]
        rw [heq]
        exact ⟨rfl, rfl, by show rm.config.maxDailyLoss ≤ rm.dailyLoss + l; linarith⟩
      | updTrades =>
        have heq : applyRiskOp now rm .updTrades =
            { rm with dailyTrades := rm.dailyTrades + 1 } := by
          simp only [applyRiskOp, RiskManager.updateDailyTrades, reset_same_date rm now hsame]
        rw [heq]
        exact ⟨rfl, rfl, hloss⟩
      | updExposure e => exact ⟨rfl, rfl, hloss⟩
      | emergency r => exact ⟨rfl, rfl, le_refl _⟩
    have hrest := ih (applyRiskOp now rm op)
      (by rw [hstep.2.1]; exact hsame)
      (by rw [← hstep.1] at hstep; exact hstep.2.2)
      (fun o ho => hops o (List.mem_cons_of_mem _ ho))
    simp only [List.foldl_cons]
    refine ⟨by rw [hrest.1, hstep.1], by rw [hrest.2.1, hstep.2.1], ?_⟩
    have := hrest.2.2
    rw [hstep.1] at this
    exact this

/-- C9 (amended): `EmergencyStop` sets the daily loss to the configured
maximum, and — as long as no calendar-day transition occurs and the only
further operations are `UpdateDailyTrades`, `UpdateExposure`,
`EmergencyStop` or `UpdateDailyLoss` with a nonnegative loss amount — every
subsequent `ValidateOrder` call fails the trading-allowed check.  (An
`UpdateDailyLoss` call with a negative amount, i.e. a recorded gain, can
re-enable trading before the daily reset; see the counterexample.) -/
theorem C9_emergency_stop_latch (rm : RiskManager) (now : SimpleDate) (reason : String)
    (ops : List RiskOp) (order : OrderInfo)
    (hsame : sameCalendarDate rm.lastResetDate now)
    (hops : ∀ op ∈ ops, op.NonnegLoss) :
    (rm.emergencyStop reason).dailyLoss = rm.config.maxDailyLoss ∧
    ((rm.emergencyStop reason).validateOrder now order).1 = false ∧
    (ops.foldl (applyRiskOp now) (rm.emergencyStop reason)).isTradingAllowed = false ∧
    ((ops.foldl (applyRiskOp now) (rm.emergencyStop reason)).validateOrder now order).1 =
      false := by
  have hstop : (rm.emergencyStop reason).dailyLoss = rm.config.maxDailyLoss := rfl
  have hsame' : sameCalendarDate (rm.emergencyStop reason).lastResetDate now := hsame
  have hsat : (rm.emergencyStop reason).config.maxDailyLoss ≤
      (rm.emergencyStop reason).dailyLoss := le_refl _
  have hfold := riskOps_keep_saturated now ops (rm.emergencyStop reason) hsame' hsat hops
  have hfin : (ops.foldl (applyRiskOp now) (rm.emergencyStop reason)).config.maxDailyLoss ≤
      (ops.foldl (applyRiskOp now) (rm.emergencyStop reason)).dailyLoss := by
    rw [hfold.1]; exact hfold.2.2
  refine ⟨hstop, ?_, ?_, ?_⟩
  · exact validateOrder_false_of_loss_ge _ now order hsame' hsat
  · exact isTradingAllowed_false_of_loss_ge _ hfin
  · exact validateOrder_false_of_loss_ge _ now order (by rw [hfold.2.1]; exact hsame') hfin

/-- C9 witness: after an emergency stop, an `UpdateDailyTrades` followed by
an `UpdateDailyLoss` of `5` on the same calendar day still leaves every
order rejected. -/
theorem C9_witness :
    let d : SimpleDate := ⟨1, 1, 2024⟩
    let rm : RiskManager :=
      { config := { maxPositionSize := 100, maxDailyLoss := 500, minOrderValue := 10
                    riskPerTrade := 1 }
        dailyLoss := 0, dailyTrades := 0, lastResetDate := d
        totalExposure := 0, maxExposure := 1000 }
    let ops : List RiskOp := [.updTrades, .updLoss 5]
    let order : OrderInfo := { symbol := "BTCUSDT", side := "BUY", quantity := 1, price := 50 }
    (rm.emergencyStop "halt").dailyLoss = 500 ∧
    ((ops.foldl (applyRiskOp d) (rm.emergencyStop "halt")).validateOrder d order).1 = false := by
  intro d rm ops order
  have h := C9_emergency_stop_latch rm d "halt" ops order (by decide)
    (by
      intro op hop
      have hop' : op ∈ [RiskOp.updTrades, RiskOp.updLoss 5] := hop
      rcases List.mem_cons.mp hop' with rfl | hop2
      · trivial
      · rcases List.mem_singleton.mp hop2 with rfl
        show (0 : ℚ) ≤ 5
        norm_num)
  exact ⟨h.1, h.2.2.2⟩

/-- C9 counterexample: `EmergencyStop` blocks trading, but a subsequent
`UpdateDailyLoss` call with a negative amount (a recorded gain) on the same
calendar date lowers the daily loss below the maximum again, after which
trading is allowed and `ValidateOrder` approves an order — so an operation
other than the daily reset *can* re-enable trading. -/
theorem C9_counterexample :
    let d : SimpleDate := ⟨1, 1, 2024⟩
    let rm : RiskManager :=
      { config := { maxPositionSize := 100, maxDailyLoss := 500, minOrderValue := 10
                    riskPerTrade := 1 }
        dailyLoss := 0, dailyTrades := 0, lastResetDate := d
        totalExposure := 0, maxExposure := 1000 }
    let stopped := rm.emergencyStop "halt"
    let after := stopped.updateDailyLoss d (-1)
    stopped.isTradingAllowed = false ∧
    after.lastResetDate = d ∧
    after.isTradingAllowed = true ∧
    (after.validateOrder d
      { symbol := "BTCUSDT", side := "BUY", quantity := 1, price := 50 }).1 = true := by
  intro d rm stopped after
  have hafter : after =
      { config := { maxPositionSize := 100, maxDailyLoss := 500, minOrderValue := 10
                    riskPerTrade := 1 }
        dailyLoss := 499, dailyTrades := 0, lastResetDate := d
        totalExposure := 0, maxExposure := 1000 } := by
    show (rm.emergencyStop "halt").updateDailyLoss d (-1) = _
    rw [RiskManager.updateDailyLoss, reset_same_date _ _ (by exact ⟨rfl, rfl, rfl⟩)]
    simp [RiskManager.emergencyStop]
    norm_num
  refine ⟨isTradingAllowed_false_of_loss_ge stopped (le_refl _), ?_, ?_, ?_⟩
  · rw [hafter]
  · rw [hafter, isTradingAllowed_spec]
    norm_num
  · rw [hafter, validateOrder_fst_eq, reset_same_date _ _ (by exact ⟨rfl, rfl, rfl⟩)]
    simp only [Bool.and_eq_true]
    rw [isTradingAllowed_spec, validateOrderSize_spec, validatePositionSize_spec,
      validateDailyLossLimit_spec, validateExposureLimit_spec, validateRiskPerTrade_spec]
    norm_num

/-- Laying out the grid creates exactly `numGrids` levels for the given
symbol. -/
theorem initializeGrid_positions_self (g : GridStrategy) (symbol : String) (basePrice : ℚ) :
    ((g.initializeGrid symbol basePrice).positions symbol).length = g.numGrids := by
  unfold GridStrategy.initializeGrid
  simp

/-- Laying out the grid for one symbol leaves every other symbol's level
array untouched. -/
theorem initializeGrid_positions_other (g : GridStrategy) (symbol : String) (basePrice : ℚ)
    (s : String) (hs : s ≠ symbol) :
    (g.initializeGrid symbol basePrice).positions s = g.positions s := by
  unfold GridStrategy.initializeGrid
  simp only [if_neg hs]

/-- C10: the grid strategy's `basePrice` is one scalar shared by all
symbols.  The first `ShouldBuy` call that finds `basePrice = 0` sets it to
that call's price and lays out `numGrids` levels for that symbol only
(other symbols' level arrays are untouched); afterwards, any symbol whose
level array was never initialized (empty) always gets `HOLD` with reason
"Price outside grid range", at every price, and the state is left
unchanged. -/
theorem C10_grid_base_price_shared (g : GridStrategy) (symbol other : String)
    (data : MarketData) :
    (g.basePrice = 0 →
      (g.shouldBuy symbol data).2.basePrice = data.price ∧
      ((g.shouldBuy symbol data).2.positions symbol).length = g.numGrids ∧
      (∀ s, s ≠ symbol → (g.shouldBuy symbol data).2.positions s = g.positions s)) ∧
    (g.basePrice ≠ 0 → g.positions other = [] →
      (g.shouldBuy other data).1.action = "HOLD" ∧
      (g.shouldBuy other data).1.reason = "Price outside grid range" ∧
      (g.shouldBuy other data).2 = g) := by
  constructor
  · intro h0
    unfold GridStrategy.shouldBuy
    rw [if_pos h0]
    dsimp only
    have hstate : ∀ b : Signal × GridStrategy,
        (b.2 = { g.initializeGrid symbol data.price with basePrice := data.price }) →
        b.2.basePrice = data.price ∧
        (b.2.positions symbol).length = g.numGrids ∧
        (∀ s, s ≠ symbol → b.2.positions s = g.positions s) := by
      intro b hb
      rw [hb]
      refine ⟨rfl, ?_, ?_⟩
      · exact initializeGrid_positions_self g symbol data.price
      · intro s hs
        exact initializeGrid_positions_other g symbol data.price s hs
    split_ifs <;> exact hstate _ rfl
  · intro h0 hempty
    unfold GridStrategy.shouldBuy
    rw [if_neg h0]
    dsimp only
    rw [hempty]
    rw [if_pos ?_]
    · exact ⟨rfl, rfl, rfl⟩
    · rcases lt_or_le (g.findGridLevel data.price) 0 with h | h
      · exact Or.inl h
      · exact Or.inr (by simpa using h)

/-- C10 witness: with the default grid strategy the first call (symbol
`"A"`, price 100) fixes the shared base price at 100 and initializes ten
levels for `"A"` only; with the base price already set, symbol `"B"` (whose
level array is empty) gets `HOLD` at any price and the state does not
change. -/
theorem C10_witness :
    let dataA : MarketData := { symbol := "A", price := 100 }
    let g2 : GridStrategy := { newGridStrategy with basePrice := 100 }
    ((newGridStrategy.shouldBuy "A" dataA).2.basePrice = 100 ∧
     ((newGridStrategy.shouldBuy "A" dataA).2.positions "A").length = 10 ∧
     (newGridStrategy.shouldBuy "A" dataA).2.positions "B" = []) ∧
    ((g2.shouldBuy "B" dataA).1.action = "HOLD" ∧ (g2.shouldBuy "B" dataA).2 = g2) := by
  intro dataA g2
  have h1 := (C10_grid_base_price_shared newGridStrategy "A" "B" dataA).1 rfl
  have h2 := (C10_grid_base_price_shared g2 "A" "B" dataA).2 (by norm_num) rfl
  exact ⟨⟨h1.1, h1.2.1, h1.2.2 "B" (by decide)⟩, ⟨h2.1, h2.2.2⟩⟩

/-- There is one price change per consecutive pair. -/
theorem priceChanges_length (ps : List ℚ) : (priceChanges ps).length = ps.length - 1 := by
  unfold priceChanges
  rw [List.length_zipWith, List.length_drop]
  omega

theorem gainsOf_length (ps : List ℚ) : (gainsOf ps).length = ps.length - 1 := by
  unfold gainsOf
  rw [List.length_map, priceChanges_length]

theorem lossesOf_length (ps : List ℚ) : (lossesOf ps).length = ps.length - 1 := by
  unfold lossesOf
  rw [List.length_map, priceChanges_length]

/-- An RSI history update that stays within the cap is a plain append. -/
theorem rsi_update_no_trim (r : RSIStrategy) (symbol : String) (price : ℚ)
    (h : (r.priceHistory symbol).length + 1 ≤ r.period + 20) :
    (r.updatePriceHistory symbol price).priceHistory symbol =
      r.priceHistory symbol ++ [price] := by
  unfold RSIStrategy.updatePriceHistory
  dsimp only
  rw [if_pos rfl, if_neg]
  simp only [List.length_append, List.length_singleton]
  omega

/-- C6: whenever the average loss over the most recent `period` price
changes is zero and at least `period + 1` samples exist, the computed RSI
is `100`; whenever fewer than `period + 1` samples are available the
computed RSI is `50`, and an evaluation whose post-update history is still
short of `period + 1` samples returns `HOLD`. -/
theorem C6_rsi_boundary_values (r : RSIStrategy) (symbol : String) (data : MarketData)
    (prices : List ℚ) :
    (1 ≤ r.period → r.period + 1 ≤ prices.length →
      ((lossesOf prices).drop ((lossesOf prices).length - r.period)).sum = 0 →
      r.calculateRSI prices = 100) ∧
    (prices.length < r.period + 1 → r.calculateRSI prices = 50) ∧
    ((r.priceHistory symbol).length < r.period →
      (r.shouldBuy symbol data).1.action = "HOLD") := by
  refine ⟨fun hper hlen hzero => ?_, fun hshort => ?_, fun hhist => ?_⟩
  · unfold RSIStrategy.calculateRSI
    rw [if_neg (by omega)]
    dsimp only
    rw [if_neg (by rw [gainsOf_length]; omega)]
    rw [if_pos]
    rw [hzero, zero_div]
  · unfold RSIStrategy.calculateRSI
    rw [if_pos hshort]
  · unfold RSIStrategy.shouldBuy
    dsimp only
    rw [rsi_update_no_trim r symbol data.price (by omega)]
    rw [show (r.updatePriceHistory symbol data.price).period = r.period from rfl]
    rw [if_pos (by simp only [List.length_append, List.length_singleton]; omega)]

/-- C6 witness: for the default RSI strategy (period 14) a flat series of
15 samples has zero average loss and RSI 100, and an evaluation on an empty
retained history returns `HOLD`. -/
theorem C6_witness :
    let prices : List ℚ :=
      [100, 100, 100, 100, 100, 100, 100, 100, 100, 100, 100, 100, 100, 100, 100]
    ((lossesOf prices).drop ((lossesOf prices).length - newRSIStrategy.period)).sum = 0 ∧
    newRSIStrategy.calculateRSI prices = 100 ∧
    (newRSIStrategy.priceHistory "BTCUSDT").length < newRSIStrategy.period ∧
    (newRSIStrategy.shouldBuy "BTCUSDT"
      { symbol := "BTCUSDT", price := 100 }).1.action = "HOLD" := by
  intro prices
  have hzero : ((lossesOf prices).drop
      ((lossesOf prices).length - newRSIStrategy.period)).sum = 0 := by
    show ((lossesOf prices).drop ((lossesOf prices).length - 14)).sum = 0
    norm_num [prices, lossesOf, priceChanges, List.zipWith]
  have hshort : (newRSIStrategy.priceHistory "BTCUSDT").length < newRSIStrategy.period := by
    show (0 : ℕ) < 14
    norm_num
  have h := C6_rsi_boundary_values newRSIStrategy "BTCUSDT"
    { symbol := "BTCUSDT", price := 100 } prices
  exact ⟨hzero, h.1 (by norm_num [newRSIStrategy]) (by norm_num [newRSIStrategy, prices]) hzero,
    hshort, h.2.2 hshort⟩

/-! ### Confidence bounds (C4) -/

/-- The property claimed for every emitted signal: confidence within
`[0, 1]`, and an action other than `HOLD` only at or above the given
minimum confidence. -/
def ConfOK (sig : Signal) (minConf : ℚ) : Prop :=
  0 ≤ sig.confidence ∧ sig.confidence ≤ 1 ∧
  (sig.action ≠ "HOLD" → minConf ≤ sig.confidence)

/-- Membership in the trimmed window implies membership in the untrimmed
list. -/
theorem mem_trim {l : List ℚ} {cap : ℕ} {x : ℚ}
    (hx : x ∈ (if l.length > cap then l.drop (l.length - cap) else l)) : x ∈ l := by
  split at hx
  · exact List.mem_of_mem_drop hx
  · exact hx

/-- Updating the SMA history with a positive price keeps every retained
price positive. -/
theorem sma_update_hist_pos (s : SMAStrategy) (symbol : String) (price : ℚ)
    (hhist : ∀ x ∈ s.priceHistory symbol, 0 < x) (hp : 0 < price) :
    ∀ x ∈ (s.updatePriceHistory symbol price).priceHistory symbol, 0 < x := by
  intro x hx
  unfold SMAStrategy.updatePriceHistory at hx
  dsimp only at hx
  rw [if_pos rfl] at hx
  rcases List.mem_append.mp (mem_trim hx) with h | h
  · exact hhist x h
  · rw [List.mem_singleton.mp h]; exact hp

/-- A mean over at least one positive price is positive. -/
theorem calculateSMA_pos (s : SMAStrategy) (prices : List ℚ) (period : ℕ)
    (hpos : ∀ x ∈ prices, 0 < x) (hper : 1 ≤ period) (hlen : period ≤ prices.length) :
    0 < s.calculateSMA prices period := by
  unfold SMAStrategy.calculateSMA
  rw [if_neg (by omega)]
  apply div_pos
  · apply List.sum_pos
    · intro x hx; exact hpos x (List.mem_of_mem_drop hx)
    · apply List.ne_nil_of_length_pos
      rw [List.length_drop]
      omega
  · exact_mod_cast hper

/-- `ShouldBuy` of the SMA strategy satisfies the confidence contract. -/
theorem smaShouldBuy_confOK (s : SMAStrategy) (symbol : String) (data : MarketData)
    (_hmin0 : 0 ≤ s.minConfidence) (_hmin1 : s.minConfidence ≤ 1) (hlong : 1 ≤ s.longPeriod)
    (hhist : ∀ x ∈ s.priceHistory symbol, 0 < x) (hp : 0 < data.price) :
    ConfOK (s.shouldBuy symbol data).1 s.minConfidence := by
  have hpos := sma_update_hist_pos s symbol data.price hhist hp
  unfold SMAStrategy.shouldBuy
  dsimp only
  split_ifs with h1 h2
  · exact ⟨le_refl 0, by norm_num, fun hact => absurd rfl hact⟩
  · refine ⟨?_, min_le_right _ _, fun _ => h2.2⟩
    have hlongpos : 0 < (s.updatePriceHistory symbol data.price).calculateSMA
        ((s.updatePriceHistory symbol data.price).priceHistory symbol)
        (s.updatePriceHistory symbol data.price).longPeriod :=
      calculateSMA_pos _ _ _ hpos hlong (by omega)
    have hsub : 0 < (s.updatePriceHistory symbol data.price).calculateSMA
          ((s.updatePriceHistory symbol data.price).priceHistory symbol)
          (s.updatePriceHistory symbol data.price).shortPeriod -
        (s.updatePriceHistory symbol data.price).calculateSMA
          ((s.updatePriceHistory symbol data.price).priceHistory symbol)
          (s.updatePriceHistory symbol data.price).longPeriod := sub_pos.mpr h2.1
    have := mul_pos (div_pos hsub hlongpos) (by norm_num : (0:ℚ) < 10)
    exact le_min (le_of_lt this) (by norm_num)
  · exact ⟨le_refl 0, by norm_num, fun hact => absurd rfl hact⟩

/-- `ShouldSell` of the SMA strategy satisfies the confidence contract. -/
theorem smaShouldSell_confOK (s : SMAStrategy) (symbol : String) (data : MarketData)
    (position : Position)
    (_hmin0 : 0 ≤ s.minConfidence) (hmin1 : s.minConfidence ≤ 1) (hlong : 1 ≤ s.longPeriod)
    (hhist : ∀ x ∈ s.priceHistory symbol, 0 < x) (hp : 0 < data.price) :
    ConfOK (s.shouldSell symbol data position).1 s.minConfidence := by
  have hpos := sma_update_hist_pos s symbol data.price hhist hp
  unfold SMAStrategy.shouldSell
  dsimp only
  split_ifs with h1 h2 h3 h4
  · exact ⟨le_refl 0, by norm_num, fun hact => absurd rfl hact⟩
  · refine ⟨?_, min_le_right _ _, fun _ => h2.2⟩
    have hlongpos : 0 < (s.updatePriceHistory symbol data.price).calculateSMA
        ((s.updatePriceHistory symbol data.price).priceHistory symbol)
        (s.updatePriceHistory symbol data.price).longPeriod :=
      calculateSMA_pos _ _ _ hpos hlong (by omega)
    have hsub : 0 < (s.updatePriceHistory symbol data.price).calculateSMA
          ((s.updatePriceHistory symbol data.price).priceHistory symbol)
          (s.updatePriceHistory symbol data.price).longPeriod -
        (s.updatePriceHistory symbol data.price).calculateSMA
          ((s.updatePriceHistory symbol data.price).priceHistory symbol)
          (s.updatePriceHistory symbol data.price).shortPeriod := sub_pos.mpr h2.1
    have := mul_pos (div_pos hsub hlongpos) (by norm_num : (0:ℚ) < 10)
    exact le_min (le_of_lt this) (by norm_num)
  · exact ⟨by norm_num, le_refl 1, fun _ => hmin1⟩
  · exact ⟨by norm_num, le_refl 1, fun _ => hmin1⟩
  · exact ⟨le_refl 0, by norm_num, fun hact => absurd rfl hact⟩

/-- Every entry of the gains list is nonnegative. -/
theorem gainsOf_nonneg (ps : List ℚ) : ∀ x ∈ gainsOf ps, 0 ≤ x := by
  intro x hx
  unfold gainsOf at hx
  rcases List.mem_map.mp hx with ⟨c, _, rfl⟩
  split
  · exact le_of_lt ‹_›
  · exact le_refl 0

/-- Every entry of the losses list is nonnegative. -/
theorem lossesOf_nonneg (ps : List ℚ) : ∀ x ∈ lossesOf ps, 0 ≤ x := by
  intro x hx
  unfold lossesOf at hx
  rcases List.mem_map.mp hx with ⟨c, _, rfl⟩
  split
  · exact le_refl 0
  · exact neg_nonneg.mpr (le_of_not_lt ‹_›)

/-- The recomputed RSI always lies in `[0, 100]`. -/
theorem calculateRSI_bounds (r : RSIStrategy) (prices : List ℚ) :
    0 ≤ r.calculateRSI prices ∧ r.calculateRSI prices ≤ 100 := by
  unfold RSIStrategy.calculateRSI
  dsimp only
  split_ifs with h1 h2 h3
  · norm_num
  · norm_num
  · norm_num
  · have hgain : 0 ≤ ((gainsOf prices).drop ((gainsOf prices).length - r.period)).sum /
        (r.period : ℚ) := by
      apply div_nonneg
      · exact List.sum_nonneg fun x hx =>
          gainsOf_nonneg prices x (List.mem_of_mem_drop hx)
      · exact_mod_cast Nat.zero_le _
    have hloss : 0 ≤ ((lossesOf prices).drop ((lossesOf prices).length - r.period)).sum /
        (r.period : ℚ) := by
      apply div_nonneg
      · exact List.sum_nonneg fun x hx =>
          lossesOf_nonneg prices x (List.mem_of_mem_drop hx)
      · exact_mod_cast Nat.zero_le _
    have hrs : 0 ≤ ((gainsOf prices).drop ((gainsOf prices).length - r.period)).sum /
          (r.period : ℚ) /
        (((lossesOf prices).drop ((lossesOf prices).length - r.period)).sum /
          (r.period : ℚ)) := div_nonneg hgain hloss
    constructor
    · have hle : (100:ℚ) / (1 + ((gainsOf prices).drop
            ((gainsOf prices).length - r.period)).sum / (r.period : ℚ) /
          (((lossesOf prices).drop ((lossesOf prices).length - r.period)).sum /
            (r.period : ℚ))) ≤ 100 :=
        div_le_self (by norm_num) (by linarith)
      linarith
    · have hge : (0:ℚ) ≤ 100 / (1 + ((gainsOf prices).drop
            ((gainsOf prices).length - r.period)).sum / (r.period : ℚ) /
          (((lossesOf prices).drop ((lossesOf prices).length - r.period)).sum /
            (r.period : ℚ))) :=
        div_nonneg (by norm_num) (by linarith)
      linarith

/-- `ShouldBuy` of the RSI strategy satisfies the confidence contract. -/
theorem rsiShouldBuy_confOK (r : RSIStrategy) (symbol : String) (data : MarketData)
    (_hmin0 : 0 ≤ r.minConfidence) (_hmin1 : r.minConfidence ≤ 1) (hover : 0 < r.oversold) :
    ConfOK (r.shouldBuy symbol data).1 r.minConfidence := by
  unfold RSIStrategy.shouldBuy
  dsimp only
  split_ifs with h1 h2
  · exact ⟨le_refl 0, by norm_num, fun hact => absurd rfl hact⟩
  · have hbounds := calculateRSI_bounds (r.updatePriceHistory symbol data.price)
      ((r.updatePriceHistory symbol data.price).priceHistory symbol)
    have hover' : 0 < (r.updatePriceHistory symbol data.price).oversold := hover
    refine ⟨?_, ?_, fun _ => h2.2⟩
    · exact le_of_lt (div_pos (sub_pos.mpr h2.1) hover')
    · rw [div_le_one hover']
      linarith [hbounds.1]
  · exact ⟨le_refl 0, by norm_num, fun hact => absurd rfl hact⟩

/-- `ShouldSell` of the RSI strategy satisfies the confidence contract. -/
theorem rsiShouldSell_confOK (r : RSIStrategy) (symbol : String) (data : MarketData)
    (position : Position)
    (_hmin0 : 0 ≤ r.minConfidence) (hmin1 : r.minConfidence ≤ 1) (hob : r.overbought < 100) :
    ConfOK (r.shouldSell symbol data position).1 r.minConfidence := by
  unfold RSIStrategy.shouldSell
  dsimp only
  split_ifs with h1 h2 h3 h4
  · exact ⟨le_refl 0, by norm_num, fun hact => absurd rfl hact⟩
  · have hbounds := calculateRSI_bounds (r.updatePriceHistory symbol data.price)
      ((r.updatePriceHistory symbol data.price).priceHistory symbol)
    have hob' : (r.updatePriceHistory symbol data.price).overbought < 100 := hob
    have hden : (0:ℚ) < 100 - (r.updatePriceHistory symbol data.price).overbought :=
      sub_pos.mpr hob'
    refine ⟨?_, ?_, fun _ => h2.2⟩
    · exact le_of_lt (div_pos (sub_pos.mpr h2.1) hden)
    · rw [div_le_one hden]
      linarith [hbounds.2]
  · exact ⟨by norm_num, le_refl 1, fun _ => hmin1⟩
  · exact ⟨by norm_num, le_refl 1, fun _ => hmin1⟩
  · exact ⟨le_refl 0, by norm_num, fun hact => absurd rfl hact⟩

/-- `ShouldBuy` of the grid strategy satisfies the confidence contract. -/
theorem gridShouldBuy_confOK (g : GridStrategy) (symbol : String) (data : MarketData)
    (hmin0 : 0 ≤ g.minConfidence) (hmin1 : g.minConfidence ≤ 1) :
    ConfOK (g.shouldBuy symbol data).1 g.minConfidence := by
  unfold GridStrategy.shouldBuy
  dsimp only
  split_ifs with h0 h1 h2 h3 h4
  all_goals first
    | exact ⟨le_refl 0, by norm_num, fun hact => absurd rfl hact⟩
    | exact ⟨hmin0, hmin1, fun _ => le_refl _⟩

/-- `ShouldSell` of the grid strategy satisfies the confidence contract. -/
theorem gridShouldSell_confOK (g : GridStrategy) (symbol : String) (data : MarketData)
    (position : Position)
    (hmin0 : 0 ≤ g.minConfidence) (hmin1 : g.minConfidence ≤ 1) :
    ConfOK (g.shouldSell symbol data position).1 g.minConfidence := by
  unfold GridStrategy.shouldSell
  dsimp only
  split_ifs with h0 h1 h2
  · exact ⟨le_refl 0, by norm_num, fun hact => absurd rfl hact⟩
  · exact ⟨hmin0, hmin1, fun _ => le_refl _⟩
  · exact ⟨by norm_num, le_refl 1, fun _ => hmin1⟩
  · exact ⟨le_refl 0, by norm_num, fun hact => absurd rfl hact⟩

/-- Well-formedness of a configured variant, as assumed by C4: the
configured minimum confidence lies in `[0, 1]`; for the SMA variant the
long period is at least `1` and all retained prices are positive; for the
RSI variant the oversold threshold is positive and the overbought threshold
below `100`.  The AI stub needs nothing. -/
def StrategyState.WF : StrategyState → Prop
  | .sma s => 0 ≤ s.minConfidence ∧ s.minConfidence ≤ 1 ∧ 1 ≤ s.longPeriod ∧
      ∀ sym : String, ∀ x ∈ s.priceHistory sym, 0 < x
  | .rsi r => 0 ≤ r.minConfidence ∧ r.minConfidence ≤ 1 ∧ 0 < r.oversold ∧ r.overbought < 100
  | .grid g => 0 ≤ g.minConfidence ∧ g.minConfidence ≤ 1
  | .ai _ => True

/-- C4: for every well-formed strategy variant and every evaluation at a
positive market price, the returned signal's confidence lies in `[0, 1]`,
and an action other than `HOLD` is returned only when the confidence is at
least the variant's configured minimum (taken as `0` for the AI stub,
which has no configured minimum). -/
theorem C4_confidence_in_range_and_gated (st : StrategyState) (ev : StrategyEval)
    (hWF : st.WF) (hprice : 0 < ev.price) :
    0 ≤ (st.evaluate ev).1.confidence ∧ (st.evaluate ev).1.confidence ≤ 1 ∧
    ((st.evaluate ev).1.action ≠ "HOLD" →
      st.minConfOf ≤ (st.evaluate ev).1.confidence) := by
  cases st with
  | sma s =>
    cases ev with
    | buyEval sym d =>
      exact smaShouldBuy_confOK s sym d hWF.1 hWF.2.1 hWF.2.2.1 (hWF.2.2.2 sym) hprice
    | sellEval sym d p =>
      exact smaShouldSell_confOK s sym d p hWF.1 hWF.2.1 hWF.2.2.1 (hWF.2.2.2 sym) hprice
  | rsi r =>
    cases ev with
    | buyEval sym d => exact rsiShouldBuy_confOK r sym d hWF.1 hWF.2.1 hWF.2.2.1
    | sellEval sym d p => exact rsiShouldSell_confOK r sym d p hWF.1 hWF.2.1 hWF.2.2.2
  | grid g =>
    cases ev with
    | buyEval sym d => exact gridShouldBuy_confOK g sym d hWF.1 hWF.2
    | sellEval sym d p => exact gridShouldSell_confOK g sym d p hWF.1 hWF.2
  | ai a =>
    cases ev with
    | buyEval sym d => exact ⟨le_refl 0, zero_le_one, fun _ => le_refl 0⟩
    | sellEval sym d p => exact ⟨le_refl 0, zero_le_one, fun _ => le_refl 0⟩

/-- C4 witness: the default SMA variant evaluated on a first buy tick at
price `100` (insufficient history, hence `HOLD` with confidence `0`). -/
theorem C4_witness :
    (StrategyState.sma newSMAStrategy).WF ∧ (0:ℚ) < 100 ∧
    (0 ≤ ((StrategyState.sma newSMAStrategy).evaluate
        (.buyEval "BTCUSDT" { symbol := "BTCUSDT", price := 100 })).1.confidence ∧
      ((StrategyState.sma newSMAStrategy).evaluate
        (.buyEval "BTCUSDT" { symbol := "BTCUSDT", price := 100 })).1.confidence ≤ 1 ∧
      (((StrategyState.sma newSMAStrategy).evaluate
          (.buyEval "BTCUSDT" { symbol := "BTCUSDT", price := 100 })).1.action ≠ "HOLD" →
        (StrategyState.sma newSMAStrategy).minConfOf ≤
          ((StrategyState.sma newSMAStrategy).evaluate
            (.buyEval "BTCUSDT" { symbol := "BTCUSDT", price := 100 })).1.confidence)) := by
  have hWF : (StrategyState.sma newSMAStrategy).WF := by
    refine ⟨by norm_num [newSMAStrategy], by norm_num [newSMAStrategy],
      by norm_num [newSMAStrategy], ?_⟩
    intro sym x hx
    simp [newSMAStrategy] at hx
  exact ⟨hWF, by norm_num,
    C4_confidence_in_range_and_gated (StrategyState.sma newSMAStrategy)
      (.buyEval "BTCUSDT" { symbol := "BTCUSDT", price := 100 }) hWF
      (by norm_num [StrategyEval.price])⟩

/-! ### Scenario A for the SMA strategy (C5) -/

/-- Feed a list of prices one per `ShouldBuy` evaluation, threading the
strategy state. -/
def feedSMAPrices (s : SMAStrategy) (symbol : String) (ps : List ℚ) : SMAStrategy :=
  ps.foldl (fun st p => (st.shouldBuy symbol { symbol := symbol, price := p }).2) s

/-- `ShouldBuy` changes the state only through the history update. -/
theorem smaShouldBuy_snd (s : SMAStrategy) (symbol : String) (data : MarketData) :
    (s.shouldBuy symbol data).2 = s.updatePriceHistory symbol data.price := by
  unfold SMAStrategy.shouldBuy
  dsimp only
  split_ifs <;> rfl

/-- An SMA history update that stays within the cap is a plain append. -/
theorem sma_update_no_trim (s : SMAStrategy) (symbol : String) (price : ℚ)
    (h : (s.priceHistory symbol).length + 1 ≤ s.longPeriod + 10) :
    (s.updatePriceHistory symbol price).priceHistory symbol =
      s.priceHistory symbol ++ [price] := by
  unfold SMAStrategy.updatePriceHistory
  dsimp only
  rw [if_pos rfl, if_neg]
  simp only [List.length_append, List.length_singleton]
  omega

/-- Feeding prices that fit inside the retention cap appends them to the
history and leaves the configuration untouched. -/
theorem feedSMA_history (symbol : String) :
    ∀ (ps : List ℚ) (s : SMAStrategy),
      (s.priceHistory symbol).length + ps.length ≤ s.longPeriod + 10 →
      (feedSMAPrices s symbol ps).priceHistory symbol = s.priceHistory symbol ++ ps ∧
      (feedSMAPrices s symbol ps).shortPeriod = s.shortPeriod ∧
      (feedSMAPrices s symbol ps).longPeriod = s.longPeriod ∧
      (feedSMAPrices s symbol ps).minConfidence = s.minConfidence := by
  intro ps
  induction ps with
  | nil =>
    intro s _
    exact ⟨by simp [feedSMAPrices], rfl, rfl, rfl⟩
  | cons p rest ih =>
    intro s h
    have hfold : feedSMAPrices s symbol (p :: rest) =
        feedSMAPrices ((s.shouldBuy symbol { symbol := symbol, price := p }).2) symbol rest :=
      rfl
    have hstep : (s.shouldBuy symbol { symbol := symbol, price := p }).2 =
        s.updatePriceHistory symbol p :=
      smaShouldBuy_snd s symbol { symbol := symbol, price := p }
    have hlen : (s.priceHistory symbol).length + 1 ≤ s.longPeriod + 10 := by
      simp only [List.length_cons] at h
      omega
    have hupd : (s.updatePriceHistory symbol p).priceHistory symbol =
        s.priceHistory symbol ++ [p] := sma_update_no_trim s symbol p hlen
    have hfields : (s.updatePriceHistory symbol p).shortPeriod = s.shortPeriod ∧
        (s.updatePriceHistory symbol p).longPeriod = s.longPeriod ∧
        (s.updatePriceHistory symbol p).minConfidence = s.minConfidence :=
      ⟨rfl, rfl, rfl⟩
    have hrec := ih (s.updatePriceHistory symbol p) (by
      rw [hupd, hfields.2.1, List.length_append]
      simp only [List.length_cons] at h
      simp only [List.length_singleton]
      omega)
    rw [hfold, hstep]
    refine ⟨?_, ?_, ?_, ?_⟩
    · rw [hrec.1, hupd, List.append_assoc, List.singleton_append]
    · rw [hrec.2.1, hfields.1]
    · rw [hrec.2.2.1, hfields.2.1]
    · rw [hrec.2.2.2, hfields.2.2]

/-- Strict pointwise dominance of equal-length nonempty lists gives a
strict sum inequality. -/
theorem sum_lt_sum_pointwise :
    ∀ (a b : List ℚ), a.length = b.length → a ≠ [] →
      (∀ (i : ℕ) (ha : i < a.length) (hb : i < b.length), a[i] < b[i]) →
      a.sum < b.sum := by
  intro a
  induction a with
  | nil => intro b _ hne _; exact absurd rfl hne
  | cons x xs ih =>
    intro b hlen hne hpt
    cases b with
    | nil => simp at hlen
    | cons y ys =>
      have hx : x < y := hpt 0 (by simp) (by simp)
      by_cases hxs : xs = []
      · subst hxs
        have hys : ys = [] := by
          simpa using hlen
        subst hys
        simpa using hx
      · have hlen' : xs.length = ys.length := by simpa using hlen
        have hrec : xs.sum < ys.sum := by
          apply ih ys hlen' hxs
          intro i hi hbi
          have := hpt (i + 1) (by simpa using Nat.succ_lt_succ hi)
            (by simpa using Nat.succ_lt_succ hbi)
          simpa using this
        simp only [List.sum_cons]
        linarith

/-- In a strictly ascending list of even length `2n`, the second half sums
to strictly more than the first half. -/
theorem take_sum_lt_drop_sum (l : List ℚ) (n : ℕ) (hn : 1 ≤ n) (hlen : l.length = 2 * n)
    (hsort : l.Pairwise (· < ·)) : (l.take n).sum < (l.drop n).sum := by
  apply sum_lt_sum_pointwise
  · rw [List.length_take_of_le (by omega), List.length_drop, hlen]
    omega
  · apply List.ne_nil_of_length_pos
    rw [List.length_take_of_le (by omega)]
    omega
  · intro i ha hb
    have hia : i < n := by rwa [List.length_take_of_le (by omega)] at ha
    rw [List.getElem_take, List.getElem_drop]
    exact List.pairwise_iff_getElem.mp hsort i (n + i) (by omega) (by omega) (by omega)

/-- `calculateSMA` ignores its receiver. -/
theorem calculateSMA_receiver (s t : SMAStrategy) : s.calculateSMA = t.calculateSMA := rfl

/-- On a 20-sample window all of whose prices are strictly ascending, the
10-sample mean strictly exceeds the 20-sample mean. -/
theorem sma_crossover_of_ascending (hist : List ℚ) (hlen : hist.length = 20)
    (hsort : hist.Pairwise (· < ·)) :
    newSMAStrategy.calculateSMA hist 20 < newSMAStrategy.calculateSMA hist 10 := by
  have hsum : (hist.take 10).sum < (hist.drop 10).sum :=
    take_sum_lt_drop_sum hist 10 (by omega) (by omega) hsort
  have hsplit : hist.sum = (hist.take 10).sum + (hist.drop 10).sum := by
    conv_lhs => rw [← List.take_append_drop 10 hist]
    rw [List.sum_append]
  unfold SMAStrategy.calculateSMA
  rw [if_neg (by omega), if_neg (by omega), hlen]
  norm_num
  rw [div_lt_div_iff₀ (by norm_num) (by norm_num), hsplit]
  linarith

/-- The signal of the 20th evaluation when 25 prices are fed one per
evaluation from a fresh default SMA strategy: the history is then exactly
the first 20 prices, and the signal is `BUY` with
`confidence = min((short−long)/long·10, 1)` when the crossover condition
and the 0.7 gate hold, `HOLD` otherwise. -/
theorem sma_sample20_signal (ps : List ℚ) (h25 : ps.length = 25) :
    ((feedSMAPrices newSMAStrategy "BTCUSDT" (ps.take 19)).shouldBuy "BTCUSDT"
        { symbol := "BTCUSDT", price := ps.getD 19 0 }).1 =
      if newSMAStrategy.calculateSMA (ps.take 20) 10 >
            newSMAStrategy.calculateSMA (ps.take 20) 20 ∧
          min ((newSMAStrategy.calculateSMA (ps.take 20) 10 -
                newSMAStrategy.calculateSMA (ps.take 20) 20) /
              newSMAStrategy.calculateSMA (ps.take 20) 20 * 10) 1 ≥ 7/10 then
        { action := "BUY"
          quantity := 1000 / ps.getD 19 0
          price := ps.getD 19 0
          confidence := min ((newSMAStrategy.calculateSMA (ps.take 20) 10 -
                newSMAStrategy.calculateSMA (ps.take 20) 20) /
              newSMAStrategy.calculateSMA (ps.take 20) 20 * 10) 1
          reason := "SMA crossover"
          positionSide := "LONG" }
      else { action := "HOLD", reason := "No buy signal" } := by
  have hfeed := feedSMA_history "BTCUSDT" (ps.take 19) newSMAStrategy (by
    rw [List.length_take_of_le (by omega)]
    norm_num [newSMAStrategy])
  have hfeedhist : (feedSMAPrices newSMAStrategy "BTCUSDT" (ps.take 19)).priceHistory
      "BTCUSDT" = ps.take 19 := by
    rw [hfeed.1]
    rfl
  have htake20 : ps.take 19 ++ [ps.getD 19 0] = ps.take 20 := by
    have h19 : (19 : ℕ) < ps.length := by omega
    have h1 : ps.getD 19 0 = ps[19] := by
      rw [List.getD_eq_getElem?_getD, List.getElem?_eq_getElem h19, Option.getD_some]
    have h2 : ps.take (19 + 1) = ps.take 19 ++ [ps[19]] := by
      rw [List.take_succ, List.getElem?_eq_getElem h19]
      rfl
    rw [h1]
    exact h2.symm
  have hupd : ((feedSMAPrices newSMAStrategy "BTCUSDT" (ps.take 19)).updatePriceHistory
      "BTCUSDT" (ps.getD 19 0)).priceHistory "BTCUSDT" = ps.take 20 := by
    rw [sma_update_no_trim _ _ _ (by
      rw [hfeedhist, List.length_take_of_le (by omega), hfeed.2.2.1]
      norm_num [newSMAStrategy])]
    rw [hfeedhist, htake20]
  unfold SMAStrategy.shouldBuy
  dsimp only
  rw [hupd]
  rw [show ((feedSMAPrices newSMAStrategy "BTCUSDT" (ps.take 19)).updatePriceHistory
      "BTCUSDT" (ps.getD 19 0)).longPeriod = 20 from hfeed.2.2.1]
  rw [show ((feedSMAPrices newSMAStrategy "BTCUSDT" (ps.take 19)).updatePriceHistory
      "BTCUSDT" (ps.getD 19 0)).shortPeriod = 10 from hfeed.2.1]
  rw [show ((feedSMAPrices newSMAStrategy "BTCUSDT" (ps.take 19)).updatePriceHistory
      "BTCUSDT" (ps.getD 19 0)).minConfidence = 7/10 from hfeed.2.2.2]
  rw [calculateSMA_receiver ((feedSMAPrices newSMAStrategy "BTCUSDT"
      (ps.take 19)).updatePriceHistory "BTCUSDT" (ps.getD 19 0)) newSMAStrategy]
  rw [if_neg (by rw [List.length_take_of_le (by omega)]; omega)]
  split_ifs <;> rfl

/-- C5 (amended): feeding the default SMA strategy
(short 10, long 20, minimum confidence 0.7) any strictly ascending series
of 25 prices one per evaluation, by sample 20 the short mean strictly
exceeds the long mean; the crossover confidence is
`min(10·(shortMean−longMean)/longMean, 1)`, and a BUY signal is emitted at
sample 20 **iff** that confidence reaches 0.7 — not unconditionally, as
nearly flat ascending series stay below the gate. -/
theorem C5_scenarioA_ascending (ps : List ℚ) (h25 : ps.length = 25)
    (hasc : ps.Pairwise (· < ·)) :
    newSMAStrategy.calculateSMA (ps.take 20) 20 <
      newSMAStrategy.calculateSMA (ps.take 20) 10 ∧
    (((feedSMAPrices newSMAStrategy "BTCUSDT" (ps.take 19)).shouldBuy "BTCUSDT"
        { symbol := "BTCUSDT", price := ps.getD 19 0 }).1.action = "BUY" ↔
      min ((newSMAStrategy.calculateSMA (ps.take 20) 10 -
            newSMAStrategy.calculateSMA (ps.take 20) 20) /
          newSMAStrategy.calculateSMA (ps.take 20) 20 * 10) 1 ≥ 7/10) ∧
    (min ((newSMAStrategy.calculateSMA (ps.take 20) 10 -
          newSMAStrategy.calculateSMA (ps.take 20) 20) /
        newSMAStrategy.calculateSMA (ps.take 20) 20 * 10) 1 ≥ 7/10 →
      ((feedSMAPrices newSMAStrategy "BTCUSDT" (ps.take 19)).shouldBuy "BTCUSDT"
        { symbol := "BTCUSDT", price := ps.getD 19 0 }).1.confidence =
        min ((newSMAStrategy.calculateSMA (ps.take 20) 10 -
            newSMAStrategy.calculateSMA (ps.take 20) 20) /
          newSMAStrategy.calculateSMA (ps.take 20) 20 * 10) 1) := by
  have hcross : newSMAStrategy.calculateSMA (ps.take 20) 20 <
      newSMAStrategy.calculateSMA (ps.take 20) 10 :=
    sma_crossover_of_ascending (ps.take 20) (List.length_take_of_le (by omega))
      (List.Pairwise.sublist (List.take_sublist 20 ps) hasc)
  have hsig := sma_sample20_signal ps h25
  refine ⟨hcross, ?_, ?_⟩
  · rw [hsig]
    by_cases hconf : min ((newSMAStrategy.calculateSMA (ps.take 20) 10 -
          newSMAStrategy.calculateSMA (ps.take 20) 20) /
        newSMAStrategy.calculateSMA (ps.take 20) 20 * 10) 1 ≥ 7/10
    · rw [if_pos ⟨hcross, hconf⟩]
      exact ⟨fun _ => hconf, fun _ => rfl⟩
    · rw [if_neg (fun hc => hconf hc.2)]
      exact ⟨fun h => absurd h (by decide), fun h => absurd h hconf⟩
  · intro hconf
    rw [hsig, if_pos ⟨hcross, hconf⟩]

/-- A strictly ascending series of 25 prices (100, 101, …, 124). -/
def ascendingPrices : List ℚ :=
  [100, 101, 102, 103, 104, 105, 106, 107, 108, 109, 110, 111, 112,
   113, 114, 115, 116, 117, 118, 119, 120, 121, 122, 123, 124]

/-- C5 witness: the amended scenario instantiated at the concrete strictly
ascending series 100…124. -/
theorem C5_witness :
    ascendingPrices.length = 25 ∧ ascendingPrices.Pairwise (· < ·) ∧
    (newSMAStrategy.calculateSMA (ascendingPrices.take 20) 20 <
       newSMAStrategy.calculateSMA (ascendingPrices.take 20) 10 ∧
     (((feedSMAPrices newSMAStrategy "BTCUSDT" (ascendingPrices.take 19)).shouldBuy
         "BTCUSDT" { symbol := "BTCUSDT", price := ascendingPrices.getD 19 0 }).1.action =
           "BUY" ↔
       min ((newSMAStrategy.calculateSMA (ascendingPrices.take 20) 10 -
             newSMAStrategy.calculateSMA (ascendingPrices.take 20) 20) /
           newSMAStrategy.calculateSMA (ascendingPrices.take 20) 20 * 10) 1 ≥ 7/10) ∧
     (min ((newSMAStrategy.calculateSMA (ascendingPrices.take 20) 10 -
           newSMAStrategy.calculateSMA (ascendingPrices.take 20) 20) /
         newSMAStrategy.calculateSMA (ascendingPrices.take 20) 20 * 10) 1 ≥ 7/10 →
       ((feedSMAPrices newSMAStrategy "BTCUSDT" (ascendingPrices.take 19)).shouldBuy
         "BTCUSDT" { symbol := "BTCUSDT", price := ascendingPrices.getD 19 0 }).1.confidence =
         min ((newSMAStrategy.calculateSMA (ascendingPrices.take 20) 10 -
             newSMAStrategy.calculateSMA (ascendingPrices.take 20) 20) /
           newSMAStrategy.calculateSMA (ascendingPrices.take 20) 20 * 10) 1)) :=
  ⟨rfl, by decide, C5_scenarioA_ascending ascendingPrices rfl (by decide)⟩

/-- C5 counterexample: the strictly ascending series 100…124 fed one price
per evaluation.  At sample 20 the short mean (114.5) does exceed the long
mean (109.5), but the crossover confidence is `100/219 ≈ 0.457 < 0.7`, so
the emitted signal is `HOLD`, not `BUY` — the claim's unconditional "a BUY
signal is emitted" fails. -/
theorem C5_counterexample :
    ascendingPrices.length = 25 ∧
    ascendingPrices.Pairwise (· < ·) ∧
    newSMAStrategy.calculateSMA (ascendingPrices.take 20) 20 <
      newSMAStrategy.calculateSMA (ascendingPrices.take 20) 10 ∧
    min ((newSMAStrategy.calculateSMA (ascendingPrices.take 20) 10 -
          newSMAStrategy.calculateSMA (ascendingPrices.take 20) 20) /
        newSMAStrategy.calculateSMA (ascendingPrices.take 20) 20 * 10) 1 < 7/10 ∧
    ((feedSMAPrices newSMAStrategy "BTCUSDT" (ascendingPrices.take 19)).shouldBuy
      "BTCUSDT"
      { symbol := "BTCUSDT", price := ascendingPrices.getD 19 0 }).1.action = "HOLD" := by
  have htake : ascendingPrices.take 20 =
      [100, 101, 102, 103, 104, 105, 106, 107, 108, 109, 110, 111, 112,
       113, 114, 115, 116, 117, 118, 119] := rfl
  have hdrop : (([100, 101, 102, 103, 104, 105, 106, 107, 108, 109, 110, 111, 112,
      113, 114, 115, 116, 117, 118, 119] : List ℚ).drop
        (([100, 101, 102, 103, 104, 105, 106, 107, 108, 109, 110, 111, 112,
          113, 114, 115, 116, 117, 118, 119] : List ℚ).length - 10)) =
      [110, 111, 112, 113, 114, 115, 116, 117, 118, 119] := rfl
  have hdrop20 : (([100, 101, 102, 103, 104, 105, 106, 107, 108, 109, 110, 111, 112,
      113, 114, 115, 116, 117, 118, 119] : List ℚ).drop
        (([100, 101, 102, 103, 104, 105, 106, 107, 108, 109, 110, 111, 112,
          113, 114, 115, 116, 117, 118, 119] : List ℚ).length - 20)) =
      [100, 101, 102, 103, 104, 105, 106, 107, 108, 109, 110, 111, 112,
       113, 114, 115, 116, 117, 118, 119] := rfl
  have hshort : newSMAStrategy.calculateSMA (ascendingPrices.take 20) 10 = 229/2 := by
    rw [htake]
    unfold SMAStrategy.calculateSMA
    rw [if_neg (by decide), hdrop]
    norm_num [List.sum_cons]
  have hlong : newSMAStrategy.calculateSMA (ascendingPrices.take 20) 20 = 219/2 := by
    rw [htake]
    unfold SMAStrategy.calculateSMA
    rw [if_neg (by decide), hdrop20]
    norm_num [List.sum_cons]
  have hconflt : min ((newSMAStrategy.calculateSMA (ascendingPrices.take 20) 10 -
        newSMAStrategy.calculateSMA (ascendingPrices.take 20) 20) /
      newSMAStrategy.calculateSMA (ascendingPrices.take 20) 20 * 10) 1 < 7/10 := by
    rw [hshort, hlong]
    apply min_lt_iff.mpr
    left
    norm_num
  refine ⟨rfl, by decide, by rw [hshort, hlong]; norm_num, hconflt, ?_⟩
  rw [sma_sample20_signal ascendingPrices rfl]
  rw [if_neg (fun hc => absurd hc.2 (not_le.mpr hconflt))]

end ContractPlayground
